import Mathlib

/-!
Verification of the KDD engine core against its specification.

The TypeScript sources are shallowly embedded: JS strings become `List Char`
(`Str`), JS `Map`s become insertion-ordered association lists, float
arithmetic on the pure fusion/coverage paths is idealized as exact rationals,
and the cosine similarity of the vector store (which involves square roots)
is modelled over the reals.  Fallible operations return `Except`.
-/

set_option maxHeartbeats 1000000

/-- JS strings are modelled as their sequence of characters. -/
abbrev Str := List Char

/-- Embed a Lean string literal as a `Str`. -/
def str (s : String) : Str := s.data

def nlChar : Char := '\n'
def dotChar : Char := '.'
def spChar : Char := ' '
/-- The backquote character (code point 96). -/
def btChar : Char := Char.ofNat 96

/-- The paragraph separator, a blank line. -/
def nl2 : Str := [nlChar, nlChar]

/-- `leadsWith pat s` holds when `pat` is an initial segment of `s`. -/
def leadsWith : Str → Str → Bool
  | [], _ => true
  | _ :: _, [] => false
  | p :: ps, c :: cs => p == c && leadsWith ps cs

/-- Split `s` at the first occurrence of `sep`, returning the text before the
occurrence and the text after it (JS `indexOf`-style scanning). -/
def breakOnSep (sep : Str) : Str → Option (Str × Str)
  | [] => none
  | c :: rest =>
    if leadsWith sep (c :: rest) then some ([], (c :: rest).drop sep.length)
    else
      match breakOnSep sep rest with
      | some (pre, post) => some (c :: pre, post)
      | none => none

/-- Fueled worker for `splitOnSubstr`; fuel `s.length + 1` always suffices
because each found separator consumes at least one character. -/
def splitOnSubstrFuel (sep : Str) : ℕ → Str → List Str
  | 0, s => [s]
  | fuel + 1, s =>
    match breakOnSep sep s with
    | none => [s]
    | some (pre, post) => pre :: splitOnSubstrFuel sep fuel post

/-- JS `String.prototype.split` with a non-empty string separator:
non-overlapping left-to-right occurrences, empty fragments kept. -/
def splitOnSubstr (sep : Str) (s : Str) : List Str :=
  if sep = [] then [s] else splitOnSubstrFuel sep (s.length + 1) s

/-- JS `String.prototype.includes`. -/
def hasSubstr (sep s : Str) : Bool :=
  if sep = [] then true else (breakOnSep sep s).isSome

/-- JS `String.prototype.trim` (both ends, whitespace). -/
def trimStr (s : Str) : Str :=
  ((s.dropWhile Char.isWhitespace).reverse.dropWhile Char.isWhitespace).reverse

/-- JS `String.prototype.toLowerCase` (ASCII idealization). -/
def lowerStr (s : Str) : Str := s.map Char.toLower

/-- Render a natural number the way JS string interpolation does. -/
def natToStr (n : ℕ) : Str := (toString n).data

/-- `List.intercalate` specialised to character lists (JS `Array.join`). -/
def joinWith (sep : Str) (xs : List Str) : Str := List.intercalate sep xs

/-- First value bound to `key` in an insertion-ordered association list
(JS `Map.prototype.get`). -/
def alookup {α : Type} : List (Str × α) → Str → Option α
  | [], _ => none
  | p :: rest, key => if p.1 = key then some p.2 else alookup rest key

/-- JS `Map.prototype.set`: update in place keeping the insertion position,
or append a fresh binding at the end. -/
def setAssoc {α : Type} : List (Str × α) → Str → α → List (Str × α)
  | [], k, v => [(k, v)]
  | p :: rest, k, v =>
    if p.1 = k then (p.1, v) :: rest else p :: setAssoc rest k v

/-- Lookup with a default (JS `map.get(k) ?? d`). -/
def getAssocD {α : Type} (m : List (Str × α)) (k : Str) (d : α) : α :=
  (alookup m k).getD d

-- ── Domain enums (src/domain/types.ts) ───────────────────────────────

/-- The closed set of 16 document kinds. -/
inductive KDDKind
  | entity | event | businessRule | businessPolicy | crossPolicy
  | command | query | process | useCase | uiView | uiComponent
  | requirement | objective | prd | adr | glossary
deriving DecidableEq, Repr, BEq, Fintype

/-- The five ordered architectural layers. -/
inductive KDDLayer
  | requirements | domain | behavior | experience | verification
deriving DecidableEq, Repr, BEq, Fintype

/-- String value of a kind (the TS enum value). -/
def kindStr : KDDKind → Str
  | .entity => str "entity"
  | .event => str "event"
  | .businessRule => str "business-rule"
  | .businessPolicy => str "business-policy"
  | .crossPolicy => str "cross-policy"
  | .command => str "command"
  | .query => str "query"
  | .process => str "process"
  | .useCase => str "use-case"
  | .uiView => str "ui-view"
  | .uiComponent => str "ui-component"
  | .requirement => str "requirement"
  | .objective => str "objective"
  | .prd => str "prd"
  | .adr => str "adr"
  | .glossary => str "glossary"

/-- String value of a layer (the TS enum value). -/
def layerStr : KDDLayer → Str
  | .requirements => str "00-requirements"
  | .domain => str "01-domain"
  | .behavior => str "02-behavior"
  | .experience => str "03-experience"
  | .verification => str "04-verification"

/-- Numeric ordering for layer violation checks (source: LAYER_NUMERIC). -/
def LAYER_NUMERIC : KDDLayer → ℕ
  | .requirements => 0
  | .domain => 1
  | .behavior => 2
  | .experience => 3
  | .verification => 4

/-- Kind → node-ID short tag (source: KIND_PREFIX), in declaration order. -/
def kindTag : KDDKind → Str
  | .entity => str "Entity"
  | .event => str "Event"
  | .businessRule => str "BR"
  | .businessPolicy => str "BP"
  | .crossPolicy => str "XP"
  | .command => str "CMD"
  | .query => str "QRY"
  | .process => str "PROC"
  | .useCase => str "UC"
  | .uiView => str "UIView"
  | .uiComponent => str "UIComp"
  | .requirement => str "REQ"
  | .objective => str "OBJ"
  | .prd => str "PRD"
  | .adr => str "ADR"
  | .glossary => str "GLOSS"

/-- All kinds in the declaration order of the TS object literal
(`Object.values` iteration order). -/
def allKinds : List KDDKind :=
  [.entity, .event, .businessRule, .businessPolicy, .crossPolicy, .command,
   .query, .process, .useCase, .uiView, .uiComponent, .requirement,
   .objective, .prd, .adr, .glossary]

/-- `Object.values(KIND_PREFIX)` in iteration order. -/
def kindTagValues : List Str := allKinds.map kindTag

-- ── Domain rules (src/domain/rules.ts) ───────────────────────────────

/-- KIND_LOOKUP: kind-string → kind (identity table on the 16 enum values). -/
def KIND_LOOKUP (s : Str) : Option KDDKind :=
  (allKinds.map (fun k => (kindStr k, k))).lookup s

/-- Expected source-path fragment per kind (source: KIND_EXPECTED_PATH;
every kind is present in the table, so the `?? ""` fallback is dead). -/
def KIND_EXPECTED_PATH : KDDKind → Str
  | .entity => str "01-domain/entities/"
  | .event => str "01-domain/events/"
  | .businessRule => str "01-domain/rules/"
  | .businessPolicy => str "02-behavior/policies/"
  | .crossPolicy => str "02-behavior/policies/"
  | .command => str "02-behavior/commands/"
  | .query => str "02-behavior/queries/"
  | .process => str "02-behavior/processes/"
  | .useCase => str "02-behavior/use-cases/"
  | .uiView => str "03-experience/views/"
  | .uiComponent => str "03-experience/views/"
  | .requirement => str "04-verification/criteria/"
  | .objective => str "00-requirements/objectives/"
  | .prd => str "00-requirements/"
  | .adr => str "00-requirements/decisions/"
  | .glossary => str "01-domain/glossary/"

structure RouteResult where
  kind : Option KDDKind
  warning : Option Str
deriving DecidableEq, Repr

/-- BR-DOCUMENT-001 kind router (source: routeDocument). -/
def routeDocument (frontMatter : Option (List (Str × Str))) (sourcePath : Str) :
    RouteResult :=
  match frontMatter with
  | none => ⟨none, none⟩
  | some fm =>
    let kindStr0 := trimStr (lowerStr (getAssocD fm (str "kind") []))
    if kindStr0 = [] then ⟨none, none⟩
    else
      match KIND_LOOKUP kindStr0 with
      | none => ⟨none, none⟩
      | some k =>
        let expected := KIND_EXPECTED_PATH k
        let warning :=
          if expected ≠ [] ∧ hasSubstr expected sourcePath = false then
            some (kindStr k ++ str " '" ++ sourcePath ++
              str "' found outside expected path '" ++ expected ++ str "'")
          else none
        ⟨some k, warning⟩

/-- Embeddable section headings per kind (source: EMBEDDABLE_SECTIONS);
sets are modelled as lists, membership is what matters. -/
def embeddableSections : KDDKind → List Str
  | .entity => [str "descripción", str "description"]
  | .event => []
  | .businessRule =>
      [str "declaración", str "declaration", str "cuándo aplica", str "when applies"]
  | .businessPolicy => [str "declaración", str "declaration"]
  | .crossPolicy => [str "propósito", str "purpose", str "declaración", str "declaration"]
  | .command => [str "purpose", str "propósito"]
  | .query => [str "purpose", str "propósito"]
  | .process => [str "participantes", str "participants", str "pasos", str "steps"]
  | .useCase => [str "descripción", str "description", str "flujo principal", str "main flow"]
  | .uiView => [str "descripción", str "description", str "comportamiento", str "behavior"]
  | .uiComponent => [str "descripción", str "description"]
  | .requirement => [str "descripción", str "description"]
  | .objective => [str "objetivo", str "objective"]
  | .prd => [str "problema / oportunidad", str "problem / opportunity"]
  | .adr => [str "contexto", str "context", str "decisión", str "decision"]
  | .glossary => [str "definición", str "definition"]

/-- BR-LAYER-001 layer-violation predicate (source: isLayerViolation). -/
def isLayerViolation (originLayer destinationLayer : KDDLayer) : Bool :=
  if originLayer = .requirements then false
  else decide (LAYER_NUMERIC originLayer < LAYER_NUMERIC destinationLayer)

-- ── Graph data model (src/domain/types.ts) ───────────────────────────

structure GraphNode where
  id : Str
  kind : KDDKind
  source_file : Str
  source_hash : Str
  layer : KDDLayer
  status : Str
  aliases : List Str
  domain : Option Str
  indexed_fields : List (Str × Str)
  indexed_at : Str
deriving DecidableEq, Repr

structure GraphEdge where
  from_node : Str
  to_node : Str
  edge_type : Str
  source_file : Str
  extraction_method : Str
  metadata : List (Str × Str)
  layer_violation : Bool
  bidirectional : Bool
deriving DecidableEq, Repr

structure ScoredNode where
  node_id : Str
  score : ℚ
  snippet : Str
  match_source : Str
deriving DecidableEq, Repr

-- ── Graph store (src/infra/graph-store.ts) ───────────────────────────

/-- The in-memory store: the node map and the keyed edge set of the
underlying multigraph, both in insertion order. -/
structure GraphStore where
  nodes : List (Str × GraphNode)
  edges : List (Str × GraphEdge)
deriving DecidableEq, Repr

/-- Composite edge key used by the store (template literal with an arrow). -/
def edgeKey (e : GraphEdge) : Str :=
  e.from_node ++ str "→" ++ e.to_node ++ str ":" ++ e.edge_type

def GraphStore.hasNode (st : GraphStore) (id : Str) : Bool :=
  (alookup st.nodes id).isSome

def GraphStore.getNode (st : GraphStore) (id : Str) : Option GraphNode :=
  alookup st.nodes id

/-- `load(nodes, edges)`: wipe everything, insert the nodes, then insert
every edge whose endpoints exist and whose composite key is fresh. -/
def GraphStore.load (_st : GraphStore) (ns : List GraphNode) (es : List GraphEdge) :
    GraphStore :=
  let nodes := ns.foldl (fun acc n => setAssoc acc n.id n) []
  let edges := es.foldl (fun acc e =>
    if (alookup nodes e.from_node).isSome ∧ (alookup nodes e.to_node).isSome ∧
        alookup acc (edgeKey e) = none
    then acc ++ [(edgeKey e, e)] else acc) []
  ⟨nodes, edges⟩

/-- Search-value matching of one node (source: nodeMatchesText). -/
def nodeMatchesText (node : GraphNode) (queryLower : Str)
    (fields : Option (List Str)) : Bool :=
  let searchValues :=
    match fields with
    | some fs => (node.indexed_fields.filter (fun p => fs.contains p.1)).map (·.2)
    | none => node.indexed_fields.map (·.2)
  let searchValues := searchValues ++ [node.id] ++ node.aliases
  searchValues.any (fun v => hasSubstr queryLower (lowerStr v))

/-- Linear case-insensitive substring scan over all nodes. -/
def GraphStore.textSearch (st : GraphStore) (query : Str)
    (fields : Option (List Str)) : List GraphNode :=
  let queryLower := lowerStr query
  (st.nodes.map (·.2)).filter (fun n => nodeMatchesText n queryLower fields)

def GraphStore.outEdgeList (st : GraphStore) (id : Str) : List GraphEdge :=
  (st.edges.filter (fun p => p.2.from_node = id)).map (·.2)

def GraphStore.inEdgeList (st : GraphStore) (id : Str) : List GraphEdge :=
  (st.edges.filter (fun p => p.2.to_node = id)).map (·.2)

def GraphStore.incomingEdges (st : GraphStore) (id : Str) : List GraphEdge :=
  if st.hasNode id then st.inEdgeList id else []

def GraphStore.outgoingEdges (st : GraphStore) (id : Str) : List GraphEdge :=
  if st.hasNode id then st.outEdgeList id else []

/-- Edge admission filter during traversal (source: edgeMatches). -/
def edgeMatches (e : GraphEdge) (edgeTypes : Option (List Str))
    (respectLayers : Bool) : Bool :=
  if respectLayers ∧ e.layer_violation then false
  else
    match edgeTypes with
    | some ts => ts.contains e.edge_type
    | none => true

/-- Working state of the BFS main loop. -/
structure BfsSt where
  visited : List Str
  frontier : List (Str × ℕ)
  collected : List GraphEdge

/-- Visit all incident edges of the current node: collect matching edges and
enqueue newly discovered endpoints at distance + 1. -/
def visitEdges (edgeTypes : Option (List Str)) (respectLayers : Bool) (dist : ℕ)
    (b : BfsSt) (pairs : List (GraphEdge × Str)) : BfsSt :=
  pairs.foldl (fun b p =>
    if edgeMatches p.1 edgeTypes respectLayers then
      let b := { b with collected := b.collected ++ [p.1] }
      if b.visited.contains p.2 then b
      else { b with visited := b.visited ++ [p.2],
                    frontier := b.frontier ++ [(p.2, dist + 1)] }
    else b) b

/-- Fueled BFS; each queue entry is popped once and every push is paired with
a fresh `visited` entry, so fuel `nodes + 2·edges + 1` always suffices. -/
def traverseLoop (st : GraphStore) (edgeTypes : Option (List Str))
    (respectLayers : Bool) (depth : ℕ) :
    ℕ → List (Str × ℕ) → List Str → List GraphEdge → List Str × List GraphEdge
  | 0, _, visited, collected => (visited, collected)
  | _ + 1, [], visited, collected => (visited, collected)
  | fuel + 1, (cur, dist) :: rest, visited, collected =>
    if depth ≤ dist then
      traverseLoop st edgeTypes respectLayers depth fuel rest visited collected
    else
      let outPairs := (st.outEdgeList cur).map (fun e => (e, e.to_node))
      let inPairs := (st.inEdgeList cur).map (fun e => (e, e.from_node))
      let b := visitEdges edgeTypes respectLayers dist
        ⟨visited, rest, collected⟩ (outPairs ++ inPairs)
      traverseLoop st edgeTypes respectLayers depth fuel b.frontier b.visited b.collected

/-- Deduplication key used for the returned edge lists. -/
def dedupKey (e : GraphEdge) : Str :=
  e.from_node ++ str "|" ++ e.to_node ++ str "|" ++ e.edge_type

/-- Keep the first edge for every `from|to|type` key. -/
def dedupEdgesByKey (es : List GraphEdge) : List GraphEdge :=
  (es.foldl (fun (acc : List GraphEdge × List Str) e =>
    if acc.2.contains (dedupKey e) then acc
    else (acc.1 ++ [e], acc.2 ++ [dedupKey e])) ([], [])).1

/-- Bidirectional bounded BFS (source: GraphStore.traverse). -/
def GraphStore.traverse (st : GraphStore) (root : Str) (depth : ℕ)
    (edgeTypes : Option (List Str)) (respectLayers : Bool) :
    List GraphNode × List GraphEdge :=
  if st.hasNode root = false then ([], [])
  else
    let fuel := st.nodes.length + 2 * st.edges.length + 1
    let (visited, collected) :=
      traverseLoop st edgeTypes respectLayers depth fuel [(root, 0)] [root] []
    (visited.filterMap st.getNode, dedupEdgesByKey collected)

-- ── Vector store (src/infra/vector-store.ts) ─────────────────────────

/-- Parallel arrays of embedding IDs and stored vectors. -/
structure VectorStore where
  ids : List Str
  vectors : List (List ℚ)
deriving DecidableEq, Repr

/-- Dot product of two stored vectors. -/
def dotQ (a b : List ℚ) : ℚ := (a.zip b).foldl (fun s p => s + p.1 * p.2) 0

/-- Sum of squares (the square of the Euclidean norm). -/
def sumsq (a : List ℚ) : ℚ := a.foldl (fun s x => s + x * x) 0

/-- Cosine similarity `q·v/(‖q‖·‖v‖)`: `none` models the IEEE NaN produced
when a norm is zero (0/0), otherwise the real value of the quotient. -/
noncomputable def cosineSim (q v : List ℚ) : Option ℝ :=
  if sumsq q * sumsq v = 0 then none
  else some ((dotQ q v : ℝ) / (Real.sqrt (sumsq q) * Real.sqrt (sumsq v)))

/-- Descending stable sort by score, the behaviour of the stable JS
`sort((a, b) => b[1] - a[1])`. -/
noncomputable def sortByScoreDesc (l : List (Str × ℝ)) : List (Str × ℝ) :=
  List.insertionSort (fun a b => b.2 ≤ a.2) l

instance : IsTrans (Str × ℝ) (fun a b => b.2 ≤ a.2) :=
  ⟨fun _ _ _ h1 h2 => le_trans h2 h1⟩

instance : IsTotal (Str × ℝ) (fun a b => b.2 ≤ a.2) :=
  ⟨fun a b => le_total b.2 a.2⟩

open Classical in
/-- Brute-force cosine top-k (source: VectorStore.search).  A `NaN`
similarity (`cosineSim = none`) fails the `sim >= minScore` test and is
dropped, exactly as in IEEE comparison semantics. -/
noncomputable def VectorStore.search (st : VectorStore) (queryVector : List ℚ)
    (limit : ℕ) (minScore : ℝ) : List (Str × ℝ) :=
  if st.ids.length = 0 then []
  else if sumsq queryVector = 0 then []
  else
    (sortByScoreDesc ((st.ids.zip st.vectors).filterMap (fun p =>
      match cosineSim queryVector p.2 with
      | none => none
      | some sim => if minScore ≤ sim then some (p.1, sim) else none))).take limit

-- ── Document model and chunker (src/application/chunking.ts) ─────────

structure DocSection where
  heading : Str
  level : ℕ
  content : Str
  path : Str
deriving DecidableEq, Repr

structure KDDDocument where
  id : Str
  kind : KDDKind
  source_path : Str
  source_hash : Str
  layer : KDDLayer
  front_matter : List (Str × Str)
  sections : List DocSection
  wiki_links : List Str
  domain : Option Str
deriving DecidableEq, Repr

structure Chunk where
  chunk_id : Str
  document_id : Str
  section_heading : Str
  content : Str
  context_text : Str
  char_offset : ℕ
deriving DecidableEq, Repr

/-- Fueled scanner for the sentence split on the pattern `(?<=\.)\s+`:
split at each maximal whitespace run immediately preceded by a period.
Fuel `rest.length + 1` always suffices. -/
def sentClusters : ℕ → Str → Str → List Str
  | 0, acc, _ => [acc.reverse]
  | _ + 1, acc, [] => [acc.reverse]
  | fuel + 1, acc, c :: rest =>
    if acc.headD (Char.ofNat 0) = dotChar ∧ c.isWhitespace = true then
      acc.reverse :: sentClusters fuel [] (rest.dropWhile Char.isWhitespace)
    else sentClusters fuel (c :: acc) rest

/-- `splitSentences` (source): regex split, trim, drop empties. -/
def splitSentences (text : Str) : List Str :=
  ((sentClusters (text.length + 1) [] text).map trimStr).filter (fun s => s ≠ [])

/-- Accumulator of the paragraph-packing loop of `splitParagraphs`. -/
structure PackSt where
  results : List (ℕ × Str)
  parts : List Str
  plen : ℕ
  off : ℕ
  pos : ℕ
deriving DecidableEq, Repr

/-- Join accumulated paragraphs with a blank line. -/
def joinPars (ps : List Str) : Str := joinWith nl2 ps

/-- Join accumulated sentences with a space. -/
def joinSp (ps : List Str) : Str := joinWith [spChar] ps

/-- Emit the current accumulator as a chunk and seed the next one with the
tail paragraph when it fits inside the overlap budget. -/
def emitState (overlap : ℕ) (st : PackSt) : PackSt :=
  let emitted := { st with results := st.results ++ [(st.off, joinPars st.parts)] }
  if 0 < overlap ∧ st.parts ≠ [] then
    let last := st.parts.getLastD []
    if last.length ≤ overlap then
      { emitted with parts := [last], plen := last.length,
                     off := st.pos - last.length - 2 }
    else { emitted with parts := [], plen := 0, off := st.pos }
  else { emitted with parts := [], plen := 0, off := st.pos }

/-- State of the inner sentence-packing loop. -/
structure SentSt where
  results : List (ℕ × Str)
  buf : List Str
  slen : ℕ
  soff : ℕ
deriving DecidableEq, Repr

/-- One step of the sentence-packing loop. -/
def sentStep (maxChars charPos : ℕ) (ss : SentSt) (sent : Str) : SentSt :=
  let ss1 :=
    if maxChars < ss.slen + sent.length + 1 ∧ ss.buf ≠ [] then
      { results := ss.results ++ [(ss.soff, joinSp ss.buf)],
        buf := [], slen := 0, soff := charPos }
    else ss
  { ss1 with buf := ss1.buf ++ [sent], slen := ss1.slen + sent.length + 1 }

/-- One step of the paragraph-packing loop of `splitParagraphs`. -/
def paraStep (maxChars overlap : ℕ) (st : PackSt) (rawPara : Str) : PackSt :=
  let para := trimStr rawPara
  if para = [] then { st with pos := st.pos + 2 }
  else
    let paraLen := para.length
    let st1 :=
      if maxChars < st.plen + paraLen + 2 ∧ st.parts ≠ [] then emitState overlap st
      else st
    let st2 :=
      if maxChars < paraLen ∧ st1.parts = [] then
        let sentences := splitSentences para
        let ss := sentences.foldl (sentStep maxChars st1.pos)
          ⟨st1.results, [], 0, st1.pos⟩
        if ss.buf ≠ [] then
          { st1 with results := ss.results, parts := ss.buf,
                     plen := ss.slen, off := ss.soff }
        else { st1 with results := ss.results }
      else
        let off' := if st1.parts = [] then st1.pos else st1.off
        { st1 with parts := st1.parts ++ [para],
                   plen := st1.plen + paraLen + 2, off := off' }
    { st2 with pos := st2.pos + paraLen + 2 }

/-- Greedy paragraph packing with overlap seeding and sentence fallback
(source: splitParagraphs). -/
def splitParagraphs (content : Str) (maxChars overlap : ℕ) : List (ℕ × Str) :=
  let paragraphs := splitOnSubstr nl2 content
  let st := paragraphs.foldl (paraStep maxChars overlap) ⟨[], [], 0, 0, 0⟩
  st.results ++ (if st.parts ≠ [] then [(st.off, joinPars st.parts)] else [])

/-- Identity preface of every chunk context (source: buildIdentity). -/
def buildIdentity (document : KDDDocument) : Str :=
  let base := str "Document: " ++ document.id ++ str "\nKind: " ++
    kindStr document.kind ++ str "\nLayer: " ++ layerStr document.layer
  match alookup document.front_matter (str "title") with
  | some t => if t ≠ [] then base ++ str "\nTitle: " ++ t else base
  | none => base

/-- Build the chunk record for one emitted paragraph pack. -/
def chunkOfPart (document : KDDDocument) (identity heading : Str) (idx : ℕ)
    (p : ℕ × Str) : Chunk :=
  ⟨document.id ++ str ":chunk-" ++ natToStr idx, document.id, heading, p.2,
   identity ++ str "\nSection: " ++ heading ++ str "\n\n" ++ p.2, p.1⟩

/-- Append the chunks of one section, threading the running chunk index. -/
def chunkSection (document : KDDDocument) (identity heading : Str)
    (acc : List Chunk × ℕ) (parts : List (ℕ × Str)) : List Chunk × ℕ :=
  parts.foldl (fun acc2 p =>
    (acc2.1 ++ [chunkOfPart document identity heading acc2.2 p], acc2.2 + 1)) acc

/-- Hierarchical chunking of the embeddable sections of a document
(source: chunkDocument; defaults 1500/200). -/
def chunkDocument (document : KDDDocument) (maxChunkChars : ℕ := 1500)
    (overlapChars : ℕ := 200) : List Chunk :=
  let allowed := embeddableSections document.kind
  if allowed = [] then []
  else
    let identity := buildIdentity document
    (document.sections.foldl (fun (acc : List Chunk × ℕ) sec =>
      if allowed.contains (lowerStr sec.heading) = false then acc
      else if trimStr sec.content = [] then acc
      else
        chunkSection document identity sec.heading acc
          (splitParagraphs sec.content maxChunkChars overlapChars)) ([], 0)).1

-- ── Hybrid search (src/application/queries/hybrid-search.ts) ─────────

/-- Input record with the TS destructuring defaults. -/
structure HybridSearchInput where
  queryText : Str
  expandGraph : Bool := true
  depth : ℕ := 2
  includeKinds : Option (List KDDKind) := none
  includeLayers : Option (List KDDLayer) := none
  respectLayers : Bool := true
  minScore : ℚ := 1/2
  limit : ℕ := 10
  maxTokens : ℕ := 8000

structure HybridSearchResult where
  results : List ScoredNode
  graphExpansion : List GraphEdge
  totalResults : ℕ
  totalTokens : ℕ
  warnings : List Str
deriving DecidableEq, Repr

/-- Kind/layer include filter (source: kindLayerFilter). -/
def kindLayerFilter (node : GraphNode) (includeKinds : Option (List KDDKind))
    (includeLayers : Option (List KDDLayer)) : Bool :=
  (match includeKinds with
   | some ks => ks.contains node.kind
   | none => true) &&
  (match includeLayers with
   | some ls => ls.contains node.layer
   | none => true)

/-- Map an embedding ID to a graph node ID by stripping the chunk suffix and
trying every kind tag (source: embIdToNodeId). -/
def embIdToNodeId (embId : Str) (graphStore : GraphStore) : Option Str :=
  let docId :=
    if hasSubstr (str ":chunk-") embId then
      ((breakOnSep (str ":chunk-") embId).map (·.1)).getD embId
    else ((breakOnSep (str ":") embId).map (·.1)).getD embId
  match kindTagValues.find? (fun p => graphStore.hasNode (p ++ str ":" ++ docId)) with
  | some p => some (p ++ str ":" ++ docId)
  | none => if graphStore.hasNode docId then some docId else none

/-- Fusion formula (source: computeFusionScore); weights 0.6/0.3/0.1, bonus
0.1 per extra positive component, divisor 1.2, capped at 1. -/
def computeFusionScore (sources : List (Str × ℚ)) : ℚ :=
  let semantic := getAssocD sources (str "semantic") 0
  let graph := getAssocD sources (str "graph") 0
  let lexical := getAssocD sources (str "lexical") 0
  let sourceCount := ((sources.map (·.2)).filter (fun v => 0 < v)).length
  let bonus : ℚ := if 1 < sourceCount then (1/10) * ((sourceCount : ℚ) - 1) else 0
  let weighted := semantic * (6/10) + graph * (3/10) + lexical * (1/10) + bonus
  min (weighted / (6/10 + 3/10 + 1/10 + 2/10)) 1

/-- Match-source tag (source: determineMatchSource). -/
def determineMatchSource (sources : List (Str × ℚ)) : Str :=
  let hasSemantic := 0 < getAssocD sources (str "semantic") 0
  let hasGraph := 0 < getAssocD sources (str "graph") 0
  if hasSemantic ∧ hasGraph then str "fusion"
  else if hasSemantic then str "semantic"
  else if hasGraph then str "graph"
  else str "lexical"

/-- Result snippet `"[<kind>] <title or id>"` (source: buildSnippet). -/
def buildSnippet (node : GraphNode) : Str :=
  match alookup node.indexed_fields (str "title") with
  | some t =>
    if t ≠ [] then str "[" ++ kindStr node.kind ++ str "] " ++ t
    else str "[" ++ kindStr node.kind ++ str "] " ++ node.id
  | none => str "[" ++ kindStr node.kind ++ str "] " ++ node.id

/-- `max(1, ⌊len/4⌋)` (source: countTokens). -/
def countTokens (text : Str) : ℕ := max 1 (text.length / 4)

/-- Evidence map update: `scores.get(id) ?? new Map` then `set`. -/
def updateScore (scores : List (Str × List (Str × ℚ))) (nodeId k : Str) (v : ℚ) :
    List (Str × List (Str × ℚ)) :=
  setAssoc scores nodeId (setAssoc (getAssocD scores nodeId []) k v)

/-- Phase 1: record `semantic = max(existing, score)` for every resolved hit. -/
def semanticPhase (graphStore : GraphStore) (hits : List (Str × ℚ))
    (scores0 : List (Str × List (Str × ℚ))) : List (Str × List (Str × ℚ)) :=
  hits.foldl (fun scores m =>
    match embIdToNodeId m.1 graphStore with
    | none => scores
    | some nodeId =>
      let prev := getAssocD (getAssocD scores nodeId []) (str "semantic") 0
      updateScore scores nodeId (str "semantic") (max prev m.2)) scores0

/-- Phase 3: expand the graph from every evidenced seed, recording
`graph = 0.5` for newly reached filtered nodes and collecting edges. -/
def graphPhase (graphStore : GraphStore) (input : HybridSearchInput)
    (scores : List (Str × List (Str × ℚ))) :
    List (Str × List (Str × ℚ)) × List GraphEdge :=
  (scores.map (·.1)).foldl (fun acc seedId =>
    if graphStore.hasNode seedId = false then acc
    else
      let te := graphStore.traverse seedId input.depth none input.respectLayers
      let acc2 := (acc.1, acc.2 ++ te.2)
      (te.1.foldl (fun sc n =>
        if n.id = seedId then sc
        else if kindLayerFilter n input.includeKinds input.includeLayers then
          updateScore sc n.id (str "graph") (1/2)
        else sc) acc2.1, acc2.2)) (scores, [])

/-- Phase 4: fusion scoring and `minScore` filtering. -/
def fusionPhase (graphStore : GraphStore) (input : HybridSearchInput)
    (scores : List (Str × List (Str × ℚ))) : List ScoredNode :=
  scores.foldl (fun fused p =>
    match graphStore.getNode p.1 with
    | none => fused
    | some node =>
      if kindLayerFilter node input.includeKinds input.includeLayers = false then
        fused
      else
        let score := computeFusionScore p.2
        if score < input.minScore then fused
        else fused ++ [⟨p.1, score, buildSnippet node, determineMatchSource p.2⟩]) []

/-- Phase 5 token-budget loop with the two `break`s of the source: the first
result is always kept, later ones only while both budgets allow. -/
def truncateLoop (maxTokens limit : ℕ) :
    List ScoredNode → List ScoredNode → ℕ → List ScoredNode × ℕ
  | [], acc, tot => (acc, tot)
  | s :: rest, acc, tot =>
    let snippetTokens := countTokens s.snippet
    if maxTokens < tot + snippetTokens ∧ 0 < acc.length then (acc, tot)
    else
      let acc' := acc ++ [s]
      let tot' := tot + snippetTokens
      if limit ≤ acc'.length then (acc', tot')
      else truncateLoop maxTokens limit rest acc' tot'

/-- QRY-003 hybrid search (source: hybridSearch).  The semantic evidence is
passed as `semanticMatches`: `some ms` stands for the value of
`vectorStore.search(encode(queryText), 3·limit, 0.8·minScore)` when both a
vector store and an encoder are present (scores idealized as rationals),
`none` for the degraded L1 configuration without them. -/
def hybridSearch (input : HybridSearchInput) (graphStore : GraphStore)
    (semanticMatches : Option (List (Str × ℚ))) :
    Except Str HybridSearchResult :=
  if (trimStr input.queryText).length < 3 then
    .error (str "QUERY_TOO_SHORT: query_text must be at least 3 characters")
  else
    let ws : List Str × List (Str × List (Str × ℚ)) :=
      match semanticMatches with
      | some ms => ([], semanticPhase graphStore ms [])
      | none => ([str "NO_EMBEDDINGS: index is L1, semantic search skipped"], [])
    let lexicalNodes := graphStore.textSearch input.queryText none
    let scores2 := lexicalNodes.foldl (fun sc n =>
      if kindLayerFilter n input.includeKinds input.includeLayers then
        updateScore sc n.id (str "lexical") (1/2)
      else sc) ws.2
    let ge :=
      if input.expandGraph then graphPhase graphStore input scores2
      else (scores2, [])
    let fused := fusionPhase graphStore input ge.1
    let sorted := List.insertionSort (fun a b : ScoredNode => b.score ≤ a.score) fused
    let ft := truncateLoop input.maxTokens input.limit sorted [] 0
    .ok ⟨ft.1, dedupEdgesByKey ge.2, ft.1.length, ft.2, ws.1⟩

-- ── Semantic query (QRY-002, src/application/queries) ────────────────

structure SemanticQueryInput where
  queryText : Str
  includeKinds : Option (List KDDKind) := none
  includeLayers : Option (List KDDLayer) := none
  minScore : ℚ := 7/10
  limit : ℕ := 10

structure SemanticQueryResult where
  results : List ScoredNode
  totalResults : ℕ
  embeddingModel : Str
deriving DecidableEq, Repr

/-- Resolve a document ID to a node by trying every kind tag
(source: findNodeForDoc). -/
def findNodeForDoc (docId : Str) (graphStore : GraphStore) : Option GraphNode :=
  match kindTagValues.findSome?
      (fun p => graphStore.getNode (p ++ str ":" ++ docId)) with
  | some node => some node
  | none => graphStore.getNode docId

/-- Result-collection loop of the semantic query, with its dedup set and
early exit at `limit`. -/
def semanticLoop (graphStore : GraphStore) (input : SemanticQueryInput) :
    List (Str × ℚ) → List Str → List ScoredNode → List ScoredNode
  | [], _, results => results
  | (embId, score) :: rest, seen, results =>
    let docId :=
      if hasSubstr (str ":chunk-") embId then
        ((breakOnSep (str ":chunk-") embId).map (·.1)).getD embId
      else ((breakOnSep (str ":") embId).map (·.1)).getD embId
    match findNodeForDoc docId graphStore with
    | none => semanticLoop graphStore input rest seen results
    | some node =>
      if seen.contains node.id then semanticLoop graphStore input rest seen results
      else
        let seen' := seen ++ [node.id]
        if kindLayerFilter node input.includeKinds input.includeLayers = false then
          semanticLoop graphStore input rest seen' results
        else
          let results' := results ++
            [⟨node.id, score, buildSnippet node, str "semantic"⟩]
          if input.limit ≤ results'.length then results'
          else semanticLoop graphStore input rest seen' results'

/-- QRY-002 semantic query (source: semanticQuery).  `matches` stands for
`vectorStore.search(encode(queryText), 3·limit, minScore)`, the only use the
source makes of the vector store and encoder. -/
def semanticQuery (input : SemanticQueryInput) (hits : List (Str × ℚ))
    (graphStore : GraphStore) (modelName : Str) :
    Except Str SemanticQueryResult :=
  if (trimStr input.queryText).length < 3 then
    .error (str "QUERY_TOO_SHORT: query_text must be at least 3 characters")
  else
    let results := semanticLoop graphStore input hits [] []
    .ok ⟨results, results.length, modelName⟩

-- ── Coverage query (QRY-005, src/application/queries/coverage-query.ts) ──

structure CoverageCategory where
  name : Str
  description : Str
  edge_type : Str
  status : Str
  found : List Str
deriving DecidableEq, Repr

structure CoverageQueryResult where
  analyzedNode : GraphNode
  categories : List CoverageCategory
  present : ℕ
  missing : ℕ
  coveragePercent : ℚ
deriving DecidableEq, Repr

/-- Fixed coverage-rule table keyed by kind (source: COVERAGE_RULES). -/
def COVERAGE_RULES : KDDKind → Option (List (Str × Str × Str))
  | .entity => some
      [(str "events", str "Domain events emitted by this entity", str "EMITS"),
       (str "business_rules", str "Business rules for this entity", str "ENTITY_RULE"),
       (str "use_cases", str "Use cases involving this entity", str "WIKI_LINK")]
  | .command => some
      [(str "events", str "Events emitted by this command", str "EMITS"),
       (str "use_cases", str "Use cases that execute this command", str "UC_EXECUTES_CMD")]
  | .useCase => some
      [(str "commands", str "Commands executed by this use case", str "UC_EXECUTES_CMD"),
       (str "rules", str "Business rules applied", str "UC_APPLIES_RULE"),
       (str "requirements", str "Requirements tracing to this UC", str "REQ_TRACES_TO")]
  | .businessRule => some
      [(str "entity", str "Entity this rule validates", str "ENTITY_RULE"),
       (str "use_cases", str "Use cases that apply this rule", str "UC_APPLIES_RULE")]
  | .requirement => some
      [(str "traces", str "Artifacts this requirement traces to", str "REQ_TRACES_TO")]
  | _ => none

/-- Collect the deduplicated other endpoints of incident edges of one type. -/
def coverageCollect (allEdges : List GraphEdge) (nodeId edgeType : Str) :
    List Str :=
  allEdges.foldl (fun foundIds e =>
    if e.edge_type = edgeType then
      let other := if e.from_node = nodeId then e.to_node else e.from_node
      if foundIds.contains other then foundIds else foundIds ++ [other]
    else foundIds) []

/-- Per-rule category construction with the `present`/`missing` counters. -/
def coverageLoop (allEdges : List GraphEdge) (nodeId : Str) :
    List (Str × Str × Str) → List CoverageCategory × ℕ × ℕ
  | [] => ([], 0, 0)
  | (catName, catDesc, edgeType) :: rest =>
    let foundIds := coverageCollect allEdges nodeId edgeType
    let r := coverageLoop allEdges nodeId rest
    if foundIds ≠ [] then
      (⟨catName, catDesc, edgeType, str "covered", foundIds⟩ :: r.1, r.2.1 + 1, r.2.2)
    else
      (⟨catName, catDesc, edgeType, str "missing", []⟩ :: r.1, r.2.1, r.2.2 + 1)

/-- QRY-005 governance coverage (source: coverageQuery). -/
def coverageQuery (graphStore : GraphStore) (nodeId : Str) :
    Except Str CoverageQueryResult :=
  if graphStore.hasNode nodeId = false then
    .error (str "NODE_NOT_FOUND: " ++ nodeId)
  else
    match graphStore.getNode nodeId with
    | none => .error (str "NODE_NOT_FOUND: " ++ nodeId)
    | some node =>
      match COVERAGE_RULES node.kind with
      | none => .error (str "UNKNOWN_KIND: no coverage rules for kind '" ++
          kindStr node.kind ++ str "'")
      | some rules =>
        let allEdges := graphStore.incomingEdges nodeId ++
          graphStore.outgoingEdges nodeId
        let cpm := coverageLoop allEdges nodeId rules
        let total := cpm.2.1 + cpm.2.2
        let coveragePercent : ℚ :=
          if 0 < total then
            ((round (((cpm.2.1 : ℚ) / (total : ℚ)) * 1000) : ℤ) : ℚ) / 10
          else 0
        .ok ⟨node, cpm.1, cpm.2.1, cpm.2.2, coveragePercent⟩

-- ── Table parsing (src/application/extractors/base.ts) ───────────────

/-- The trimmed pipe-leading lines of the content. -/
def pipedLines (content : Str) : List Str :=
  ((splitOnSubstr [nlChar] (trimStr content)).map trimStr).filter
    (fun l => leadsWith (str "|") l)

/-- `replace(/^\||\|$/g, "")`: one leading and one trailing pipe removed. -/
def stripOuterPipes (l : Str) : Str :=
  let l1 := if leadsWith (str "|") l then l.drop 1 else l
  if l1 ≠ [] ∧ l1.getLast? = some '|' then l1.dropLast else l1

/-- `replace` of every backquote by nothing. -/
def removeBackticks (s : Str) : Str := s.filter (fun c => c ≠ btChar)

/-- Header cells: split on `|`, trim, strip backquotes. -/
def headerCells (l : Str) : List Str :=
  (splitOnSubstr [ '|' ] (stripOuterPipes l)).map (fun h => removeBackticks (trimStr h))

/-- Data cells: split on `|` and trim. -/
def rowCells (l : Str) : List Str :=
  (splitOnSubstr [ '|' ] (stripOuterPipes l)).map trimStr

/-- `headers.forEach((h, i) => row[h] = cells[i])` as an ordered record. -/
def buildRow (headers cells : List Str) : List (Str × Str) :=
  (headers.zip cells).foldl (fun row p => setAssoc row p.1 p.2) []

/-- Rows from the data lines: lines with fewer cells than headers are
dropped, the rest produce one record each. -/
def rowsFromLines (headers : List Str) (ls : List Str) : List (List (Str × Str)) :=
  ls.foldl (fun rows line =>
    let cells := rowCells line
    if headers.length ≤ cells.length then rows ++ [buildRow headers cells]
    else rows) []

/-- Core of `parseTableRows` over the filtered pipe lines: the first line is
the header, the second is skipped unconditionally, rows come from the rest. -/
def parseRowsFromLines (ls : List Str) : List (List (Str × Str)) :=
  if ls.length < 2 then []
  else
    match ls with
    | [] => []
    | l0 :: rest => rowsFromLines (headerCells l0) (rest.drop 1)

/-- Markdown table parser (source: parseTableRows). -/
def parseTableRows (content : Str) : List (List (Str × Str)) :=
  parseRowsFromLines (pipedLines content)

-- ── Wiki-link edges (src/application/extractors/base.ts) ─────────────

structure WikiLink where
  raw : Str
  target : Str
  domain : Option Str
  aliasTxt : Option Str
deriving DecidableEq, Repr

/-- JS `s.split(sep, 2)` read as a pair: the fragment before the first
occurrence of `sep` and the fragment between the first occurrence and the
next one (or the end). When `sep` does not occur the call sites never read
the second component (they guard with `includes`), so `[]` stands in. -/
def splitTwo (sep s : Str) : Str × Str :=
  match breakOnSep sep s with
  | none => (s, [])
  | some (a, rest) =>
    match breakOnSep sep rest with
    | none => (a, rest)
    | some (b, _) => (a, b)

/-- Body of the `extractWikiLinks` loop for one captured group `inner`
(source: extractWikiLinks, src/infra/wiki-links.ts): trim the capture and
skip the match when the result is empty; if it contains `::`, the first two
fragments of `split("::", 2)` become the trimmed domain and the new target;
if the target then contains `|`, the first two fragments of
`split("|", 2)` become the trimmed target and alias. -/
def parseInner (inner : Str) : Option WikiLink :=
  let raw := trimStr inner
  if raw = [] then none
  else
    let st1 :=
      if hasSubstr (str "::") raw then
        (some (trimStr (splitTwo (str "::") raw).1),
         trimStr (splitTwo (str "::") raw).2)
      else (none, raw)
    let st2 :=
      if hasSubstr (str "|") st1.2 then
        (trimStr (splitTwo (str "|") st1.2).1,
         some (trimStr (splitTwo (str "|") st1.2).2))
      else (st1.2, none)
    some ⟨raw, st2.1, st1.1, st2.2⟩

/-- Fueled scan of the global regex `\[\[([^\]]+)\]\]` over the content
(source: WIKI_LINK_RE and matchAll, src/infra/wiki-links.ts): a match at a
position needs the literal `[[`, a nonempty greedy run of characters other
than `]`, then the literal `]]`; on success the scan resumes after the
match, on failure one character further. Fuel `content.length + 1` always
suffices because every step consumes at least one character. -/
def scanLinksFuel : ℕ → Str → List WikiLink
  | 0, _ => []
  | _ + 1, [] => []
  | fuel + 1, c :: rest =>
    if leadsWith (str "[[") (c :: rest) then
      let run := (rest.drop 1).takeWhile (fun ch => ch != ']')
      let tl := (rest.drop 1).drop run.length
      if run ≠ [] ∧ leadsWith (str "]]") tl then
        (match parseInner run with
         | some l => [l]
         | none => []) ++ scanLinksFuel fuel (tl.drop 2)
      else scanLinksFuel fuel rest
    else scanLinksFuel fuel rest

/-- Every wiki link of a text, in match order (source: extractWikiLinks,
src/infra/wiki-links.ts). -/
def extractWikiLinks (content : Str) : List WikiLink :=
  scanLinksFuel (content.length + 1) content

/-- Wiki-target prefix → node-ID tag table (source: resolveWikiLinkToNodeId). -/
def resolveTagTable : List (Str × Str) :=
  [(str "EVT-", str "Event"), (str "BR-", str "BR"), (str "BP-", str "BP"),
   (str "XP-", str "XP"), (str "CMD-", str "CMD"), (str "QRY-", str "QRY"),
   (str "UC-", str "UC"), (str "PROC-", str "PROC"), (str "REQ-", str "REQ"),
   (str "OBJ-", str "OBJ"), (str "ADR-", str "ADR"), (str "PRD-", str "PRD"),
   (str "UI-", str "UIView")]

/-- Resolve a wiki-link target to a node ID; unprefixed targets become
entities (source: resolveWikiLinkToNodeId). -/
def resolveWikiLinkToNodeId (link : WikiLink) : Option Str :=
  match resolveTagTable.find? (fun p => leadsWith p.1 link.target) with
  | some p => some (p.2 ++ str ":" ++ link.target)
  | none => some (str "Entity:" ++ link.target)

/-- Node-ID tag → layer guess (source: guessLayerFromNodeId). -/
def guessLayerTable : List (Str × KDDLayer) :=
  [(str "Entity", .domain), (str "Event", .domain), (str "BR", .domain),
   (str "BP", .behavior), (str "XP", .behavior), (str "CMD", .behavior),
   (str "QRY", .behavior), (str "PROC", .behavior), (str "UC", .behavior),
   (str "UIView", .experience), (str "UIComp", .experience),
   (str "REQ", .verification), (str "OBJ", .requirements),
   (str "PRD", .requirements), (str "ADR", .requirements),
   (str "GLOSS", .domain)]

/-- Guess the destination layer from the node-ID tag before the colon
(source: guessLayerFromNodeId). -/
def guessLayerFromNodeId (nodeId : Str) : Option KDDLayer :=
  let tag :=
    if hasSubstr (str ":") nodeId then
      ((breakOnSep (str ":") nodeId).map (·.1)).getD []
    else []
  alookup guessLayerTable tag

/-- Build the `WIKI_LINK` edge for one resolved link: an undefined
destination layer yields `layer_violation = false` (source: loop body of
buildWikiLinkEdges). -/
def mkWikiLinkEdge (sourcePath fromNodeId : Str) (fromLayer : KDDLayer)
    (link : WikiLink) (toNodeId : Str) : GraphEdge :=
  let violation :=
    match guessLayerFromNodeId toNodeId with
    | some destLayer => isLayerViolation fromLayer destLayer
    | none => false
  let metadata :=
    (match link.domain with
     | some d => if d ≠ [] then [(str "domain", d)] else []
     | none => []) ++
    (match link.aliasTxt with
     | some a => if a ≠ [] then [(str "display_alias", a)] else []
     | none => [])
  ⟨fromNodeId, toNodeId, str "WIKI_LINK", sourcePath, str "wiki_link",
   metadata, violation, true⟩

/-- Loop body of `buildWikiLinkEdges`: resolve, skip already-seen
`from|to` pairs, append the edge otherwise. -/
def wikiLinkStep (sourcePath fromNodeId : Str) (fromLayer : KDDLayer)
    (acc : List GraphEdge × List Str) (link : WikiLink) :
    List GraphEdge × List Str :=
  match resolveWikiLinkToNodeId link with
  | none => acc
  | some toNodeId =>
    if acc.2.contains (fromNodeId ++ str "|" ++ toNodeId) then acc
    else (acc.1 ++ [mkWikiLinkEdge sourcePath fromNodeId fromLayer link toNodeId],
          acc.2 ++ [fromNodeId ++ str "|" ++ toNodeId])

/-- Wiki-link edges of a document, deduplicated per `from|to` pair
(source: buildWikiLinkEdges). -/
def buildWikiLinkEdges (document : KDDDocument) (fromNodeId : Str)
    (fromLayer : KDDLayer) : List GraphEdge :=
  let fullContent := joinWith [nlChar] (document.sections.map (·.content))
  let links := extractWikiLinks fullContent
  (links.foldl (wikiLinkStep document.source_path fromNodeId fromLayer)
    ([], [])).1

-- ── Concrete fixtures used by witnesses and counterexamples ─────────

/-- A node whose title contains the text "impact analysis". -/
def fixImpactNode : GraphNode :=
  ⟨str "Entity:ImpactDoc", .entity, str "specs/01-domain/entities/ImpactDoc.md",
   str "h", .domain, str "draft", [], none,
   [(str "title", str "Impact Analysis Guide")], str "t"⟩

/-- A store holding exactly that node and no edges. -/
def fixImpactStore : GraphStore := ⟨[(fixImpactNode.id, fixImpactNode)], []⟩

def fixReqNode : GraphNode :=
  ⟨str "REQ:R1", .requirement, str "p", str "h", .verification, str "draft",
   [], none, [], str "t"⟩

def fixUcNode : GraphNode :=
  ⟨str "UC:U1", .useCase, str "p", str "h", .behavior, str "draft",
   [], none, [], str "t"⟩

def fixTraceEdge : GraphEdge :=
  ⟨str "REQ:R1", str "UC:U1", str "REQ_TRACES_TO", str "p", str "m", [],
   false, false⟩

/-- A requirement with its single rule category covered. -/
def fixCovStore : GraphStore :=
  GraphStore.load ⟨[], []⟩ [fixReqNode, fixUcNode] [fixTraceEdge]

/-- A vector store with one zero vector and one unit vector. -/
def fixVecStore : VectorStore := ⟨[str "a", str "b"], [[0], [1]]⟩

/-- A two-paragraph body of exactly 1500 characters. -/
def fixChunkBody : Str :=
  List.replicate 100 'a' ++ nl2 ++ List.replicate 1398 'b'

/-- An entity document whose description section carries that body. -/
def fixChunkDoc : KDDDocument :=
  ⟨str "E1", .entity, str "p", str "h", .domain, [],
   [⟨str "description", 2, fixChunkBody, str "description"⟩], [], none⟩

/-- A tiny single-paragraph entity document for the chunker witness. -/
def fixChunkDocSmall : KDDDocument :=
  ⟨str "E2", .entity, str "p", str "h", .domain, [],
   [⟨str "description", 2, str "abcde", str "description"⟩], [], none⟩

-- ── Generic helper lemmas ────────────────────────────────────────────

theorem foldl_preserve {α β : Type} (f : β → α → β) (P : β → Prop)
    (hstep : ∀ acc x, P acc → P (f acc x)) :
    ∀ (l : List α) (acc : β), P acc → P (l.foldl f acc) := by
  intro l
  induction l with
  | nil => intro acc h; exact h
  | cons x xs ih => intro acc h; exact ih (f acc x) (hstep acc x h)

theorem zip_take_len {α β : Type} :
    ∀ (l1 : List α) (l2 : List β), l1.zip l2 = l1.zip (l2.take l1.length) := by
  intro l1
  induction l1 with
  | nil => intro l2; simp
  | cons x xs ih =>
    intro l2
    cases l2 with
    | nil => simp
    | cons y ys => simp [List.zip_cons_cons, ih ys]

-- ── Claim C8 ─────────────────────────────────────────────────────────

/-- Claim C8: routing front-matter `{ kind: "entity" }` at the well-placed
path yields kind `entity` with no warning, and at the misplaced path yields
kind `entity` with exactly the specified warning string. -/
theorem route_document_scenarios :
    routeDocument (some [(str "kind", str "entity")])
        (str "specs/01-domain/entities/KDDDocument.md") =
      ⟨some .entity, none⟩ ∧
    routeDocument (some [(str "kind", str "entity")])
        (str "specs/02-behavior/Stray.md") =
      ⟨some .entity,
       some (str "entity 'specs/02-behavior/Stray.md' found outside expected path '01-domain/entities/'")⟩ := by
  constructor
  · decide
  · decide

-- ── Claim C2 ─────────────────────────────────────────────────────────

/-- Claim C2: `isLayerViolation origin destination` is true exactly when the
origin is not the requirements layer and its numeric order is strictly below
the destination's; and a wiki-link edge whose destination node-ID tag
resolves to no layer carries `layer_violation = false`. -/
theorem layer_violation_rule :
    (∀ o d : KDDLayer, isLayerViolation o d = true ↔
       (o ≠ .requirements ∧ LAYER_NUMERIC o < LAYER_NUMERIC d)) ∧
    (∀ (sourcePath fromNodeId : Str) (fromLayer : KDDLayer) (link : WikiLink)
       (toNodeId : Str), guessLayerFromNodeId toNodeId = none →
       (mkWikiLinkEdge sourcePath fromNodeId fromLayer link toNodeId).layer_violation
         = false) ∧
    (∀ (document : KDDDocument) (fromNodeId : Str) (fromLayer : KDDLayer),
       ∀ e ∈ buildWikiLinkEdges document fromNodeId fromLayer,
         guessLayerFromNodeId e.to_node = none → e.layer_violation = false) := by
  refine ⟨by decide, ?_, ?_⟩
  · intro sourcePath fromNodeId fromLayer link toNodeId h
    simp [mkWikiLinkEdge, h]
  · intro document fromNodeId fromLayer
    unfold buildWikiLinkEdges
    refine foldl_preserve
      (wikiLinkStep document.source_path fromNodeId fromLayer)
      (fun acc => ∀ e ∈ acc.1,
        guessLayerFromNodeId e.to_node = none → e.layer_violation = false)
      ?_ _ ([], []) (by intro e he; simp at he)
    intro acc link hacc
    unfold wikiLinkStep
    cases hres : resolveWikiLinkToNodeId link with
    | none => exact hacc
    | some toNodeId =>
      cases hseen : acc.2.contains (fromNodeId ++ str "|" ++ toNodeId) with
      | true =>
        have hmem : fromNodeId ++ (str "|" ++ toNodeId) ∈ acc.2 := by
          simpa using hseen
        simpa [hmem] using hacc
      | false =>
        simp only [hseen, Bool.false_eq_true, if_false]
        intro e he
        rcases List.mem_append.mp he with h1 | h2
        · exact hacc e h1
        · rcases List.mem_singleton.mp h2 with rfl
          intro hnone
          simp only [mkWikiLinkEdge] at hnone ⊢
          simp [hnone]

/-- Witness for C2: a node ID with an unknown tag resolves to no layer, and
the corresponding edge is not flagged. -/
theorem layer_violation_rule_witness :
    guessLayerFromNodeId (str "XYZ:foo") = none ∧
    (mkWikiLinkEdge (str "specs/01-domain/a.md") (str "BR:BR-001") .domain
        ⟨str "XYZ-1", str "XYZ-1", none, none⟩ (str "XYZ:foo")).layer_violation
      = false :=
  ⟨by decide, layer_violation_rule.2.1 _ _ _ _ _ (by decide)⟩

-- ── Claim C5 ─────────────────────────────────────────────────────────

/-- Claim C5: any query text whose trimmed length is below 3 makes the
hybrid query and the semantic query fail with `QUERY_TOO_SHORT`, whatever
the stores and semantic evidence are — no result is produced, and the
outcome is independent of every other input, which renders "before any
other work is done" in a functional embedding. -/
theorem query_too_short_guard :
    (∀ (input : HybridSearchInput) (graphStore : GraphStore)
       (semanticMatches : Option (List (Str × ℚ))),
       (trimStr input.queryText).length < 3 →
       hybridSearch input graphStore semanticMatches =
         .error (str "QUERY_TOO_SHORT: query_text must be at least 3 characters")) ∧
    (∀ (input : SemanticQueryInput) (hits : List (Str × ℚ))
       (graphStore : GraphStore) (modelName : Str),
       (trimStr input.queryText).length < 3 →
       semanticQuery input hits graphStore modelName =
         .error (str "QUERY_TOO_SHORT: query_text must be at least 3 characters")) := by
  constructor
  · intro input graphStore semanticMatches h
    simp [hybridSearch, if_pos h]
  · intro input hits graphStore modelName h
    simp [semanticQuery, if_pos h]

/-- Witness for C5: the empty query text is rejected by both queries. -/
theorem query_too_short_guard_witness :
    (trimStr (str "")).length < 3 ∧
    hybridSearch { queryText := str "" } ⟨[], []⟩ none =
      .error (str "QUERY_TOO_SHORT: query_text must be at least 3 characters") ∧
    semanticQuery { queryText := str "  a " } [] ⟨[], []⟩ (str "m") =
      .error (str "QUERY_TOO_SHORT: query_text must be at least 3 characters") :=
  ⟨by decide, query_too_short_guard.1 _ _ _ (by decide),
   query_too_short_guard.2 _ _ _ _ (by decide)⟩

-- ── Claim C9 ─────────────────────────────────────────────────────────

/-- Claim C9: the hybrid query is deterministic — runs over identical graph
stores with identical semantic evidence (identical vector store and encoder
output) produce identical results, edges and warnings. -/
theorem hybrid_search_deterministic :
    ∀ (input : HybridSearchInput) (gs1 gs2 : GraphStore)
      (sm1 sm2 : Option (List (Str × ℚ))),
      gs1 = gs2 → sm1 = sm2 →
      hybridSearch input gs1 sm1 = hybridSearch input gs2 sm2 := by
  intro input gs1 gs2 sm1 sm2 h1 h2
  rw [h1, h2]

/-- Witness for C9: two runs on a concrete store coincide. -/
theorem hybrid_search_deterministic_witness :
    hybridSearch { queryText := str "abc" } ⟨[], []⟩ none =
      hybridSearch { queryText := str "abc" } ⟨[], []⟩ none :=
  hybrid_search_deterministic _ _ _ _ _ rfl rfl

-- ── Claim C10 ────────────────────────────────────────────────────────

theorem rowsFromLines_goes_by_count (headers : List Str) :
    ∀ (ls : List Str) (acc : List (List (Str × Str))),
      (ls.foldl (fun rows line =>
        let cells := rowCells line
        if headers.length ≤ cells.length then rows ++ [buildRow headers cells]
        else rows) acc).length =
      acc.length + ls.countP (fun l => decide (headers.length ≤ (rowCells l).length)) := by
  intro ls
  induction ls with
  | nil => intro acc; simp
  | cons l rest ih =>
    intro acc
    by_cases h : headers.length ≤ (rowCells l).length
    · simp only [List.foldl_cons, if_pos h, List.countP_cons, h]
      rw [ih]
      simp
      omega
    · simp only [List.foldl_cons, if_neg h, List.countP_cons, h]
      rw [ih]
      simp [h]

/-- Claim C10: `parseTableRows` filters the trimmed pipe-leading lines,
unconditionally treats the second one as the separator (the output is
independent of it, so a data row in that position is silently lost), builds
one row per remaining line having at least as many cells as the header (a
shorter line produces no row), and ignores trailing cells beyond the
header width. -/
theorem parse_table_rows_behavior :
    (∀ content, parseTableRows content = parseRowsFromLines (pipedLines content)) ∧
    (∀ (l0 l1 l1' : Str) (rest : List Str),
       parseRowsFromLines (l0 :: l1 :: rest) = parseRowsFromLines (l0 :: l1' :: rest)) ∧
    (∀ (l0 l1 : Str) (rest : List Str),
       (parseRowsFromLines (l0 :: l1 :: rest)).length =
         rest.countP (fun l => decide ((headerCells l0).length ≤ (rowCells l).length))) ∧
    (∀ headers cells : List Str, headers.length ≤ cells.length →
       buildRow headers cells = buildRow headers (cells.take headers.length)) := by
  refine ⟨fun _ => rfl, ?_, ?_, ?_⟩
  · intro l0 l1 l1' rest
    simp only [parseRowsFromLines, List.length_cons]
    rw [if_neg (by omega), if_neg (by omega)]
    simp only [List.drop_succ_cons, List.drop_zero]
  · intro l0 l1 rest
    simp only [parseRowsFromLines, List.length_cons]
    rw [if_neg (by omega)]
    simpa [rowsFromLines] using rowsFromLines_goes_by_count (headerCells l0) rest []
  · intro headers cells _
    unfold buildRow
    rw [zip_take_len headers cells]

/-- Witness for C10: a concrete short data row is dropped, a long one keeps
only the first cells, and the count matches. -/
theorem parse_table_rows_behavior_witness :
    2 ≤ 3 ∧
    buildRow [str "a", str "b"] [str "x", str "y", str "z"] =
      buildRow [str "a", str "b"] ([str "x", str "y", str "z"].take 2) :=
  ⟨by decide, parse_table_rows_behavior.2.2.2 _ _ (by decide)⟩

-- ── Claim C6 ─────────────────────────────────────────────────────────

theorem foldl_preserve_mem {α β : Type} (f : β → α → β) (P : β → Prop) :
    ∀ (l : List α), (∀ acc x, x ∈ l → P acc → P (f acc x)) →
      ∀ acc, P acc → P (l.foldl f acc) := by
  intro l
  induction l with
  | nil => intro _ acc h; exact h
  | cons x xs ih =>
    intro hstep acc h
    exact ih (fun acc y hy => hstep acc y (List.mem_cons_of_mem x hy))
      (f acc x) (hstep acc x (List.mem_cons_self x xs) h)

theorem alookup_cons {α : Type} (p : Str × α) (rest : List (Str × α)) (key : Str) :
    alookup (p :: rest) key = if p.1 = key then some p.2 else alookup rest key := rfl

theorem setAssoc_cons {α : Type} (p : Str × α) (rest : List (Str × α)) (k : Str) (v : α) :
    setAssoc (p :: rest) k v =
      if p.1 = k then (p.1, v) :: rest else p :: setAssoc rest k v := rfl

theorem alookup_eq_none_iff {α : Type} :
    ∀ (l : List (Str × α)) (k : Str), alookup l k = none ↔ k ∉ l.map Prod.fst := by
  intro l k
  induction l with
  | nil =>
    constructor
    · intro _ hm; simp at hm
    · intro _; rfl
  | cons p rest ih =>
    rw [alookup_cons]
    by_cases h : p.1 = k
    · rw [if_pos h]
      simp only [List.map_cons, List.mem_cons, not_or]
      constructor
      · intro hc; exact absurd hc (by simp)
      · intro hc; exact absurd h.symm hc.1
    · rw [if_neg h, ih]
      have h2 : ¬(k = p.1) := fun he => h he.symm
      simp only [List.map_cons, List.mem_cons, not_or]
      constructor
      · intro hc; exact ⟨h2, hc⟩
      · intro hc; exact hc.2

theorem setAssoc_of_fresh {α : Type} :
    ∀ (l : List (Str × α)) (k : Str) (v : α), k ∉ l.map Prod.fst →
      setAssoc l k v = l ++ [(k, v)] := by
  intro l k v
  induction l with
  | nil => intro _; rfl
  | cons p rest ih =>
    intro h
    simp only [List.map_cons, List.mem_cons, not_or] at h
    have hne : ¬(p.1 = k) := fun he => h.1 he.symm
    rw [setAssoc_cons, if_neg hne, List.cons_append]
    rw [ih h.2]

theorem loadNodes_eq_map :
    ∀ (ns : List GraphNode) (acc : List (Str × GraphNode)),
      (ns.map GraphNode.id).Nodup →
      (∀ n ∈ ns, n.id ∉ acc.map Prod.fst) →
      ns.foldl (fun acc n => setAssoc acc n.id n) acc =
        acc ++ ns.map (fun n => (n.id, n)) := by
  intro ns
  induction ns with
  | nil => intro acc _ _; simp
  | cons n rest ih =>
    intro acc hnd hdisj
    simp only [List.map_cons, List.nodup_cons] at hnd
    simp only [List.foldl_cons]
    rw [setAssoc_of_fresh acc n.id n (hdisj n (List.mem_cons_self n rest))]
    rw [ih (acc ++ [(n.id, n)]) hnd.2 ?_]
    · simp
    · intro m hm
      simp only [List.map_append, List.mem_append, List.map_cons, List.map_nil]
      push_neg
      refine ⟨hdisj m (List.mem_cons_of_mem n hm), ?_⟩
      simp only [List.mem_singleton]
      intro he
      exact hnd.1 (he ▸ List.mem_map_of_mem GraphNode.id hm)

theorem alookup_map_of_mem :
    ∀ (ns : List GraphNode) (n : GraphNode), (ns.map GraphNode.id).Nodup →
      n ∈ ns → alookup (ns.map (fun m => (m.id, m))) n.id = some n := by
  intro ns
  induction ns with
  | nil => intro n _ h; simp at h
  | cons m rest ih =>
    intro n hnd hmem
    simp only [List.map_cons, List.nodup_cons] at hnd
    rcases List.mem_cons.mp hmem with rfl | hmem2
    · simp [alookup]
    · have hne : m.id ≠ n.id := by
        intro he
        exact hnd.1 (he ▸ List.mem_map_of_mem GraphNode.id hmem2)
      simp only [List.map_cons, alookup, if_neg hne]
      exact ih n hnd.2 hmem2

theorem alookup_map_inv :
    ∀ (ns : List GraphNode) (id : Str) (v : GraphNode),
      alookup (ns.map (fun m => (m.id, m))) id = some v → v ∈ ns ∧ v.id = id := by
  intro ns
  induction ns with
  | nil => intro id v h; simp [alookup] at h
  | cons m rest ih =>
    intro id v h
    simp only [List.map_cons, alookup] at h
    by_cases he : m.id = id
    · rw [if_pos he] at h
      cases h
      exact ⟨List.mem_cons_self m rest, he⟩
    · rw [if_neg he] at h
      rcases ih id v h with ⟨h1, h2⟩
      exact ⟨List.mem_cons_of_mem m h1, h2⟩

/-- The composite edge key is a function of the `(from, to, type)` triple. -/
def tripleOf (e : GraphEdge) : Str × Str × Str :=
  (e.from_node, e.to_node, e.edge_type)

def tripleKeyStr (t : Str × Str × Str) : Str :=
  t.1 ++ str "→" ++ t.2.1 ++ str ":" ++ t.2.2

/-- Claim C6: after `load`, the store holds exactly the given nodes (for
duplicate-free IDs), every stored edge is an input edge with both endpoints
present as stored nodes, and no two stored edges share the composite
`(from, to, edge_type)` key. -/
theorem graph_store_load_invariants
    (st0 : GraphStore) (ns : List GraphNode) (es : List GraphEdge)
    (hnd : (ns.map GraphNode.id).Nodup) :
    (∀ n ∈ ns, (GraphStore.load st0 ns es).getNode n.id = some n) ∧
    (∀ (id : Str) (v : GraphNode),
       (GraphStore.load st0 ns es).getNode id = some v → v ∈ ns ∧ v.id = id) ∧
    (∀ p ∈ (GraphStore.load st0 ns es).edges,
       (GraphStore.load st0 ns es).hasNode p.2.from_node = true ∧
       (GraphStore.load st0 ns es).hasNode p.2.to_node = true ∧ p.2 ∈ es) ∧
    ((GraphStore.load st0 ns es).edges.map (fun p => tripleOf p.2)).Nodup := by
  have hnodes : (GraphStore.load st0 ns es).nodes = ns.map (fun n => (n.id, n)) := by
    show ns.foldl (fun acc n => setAssoc acc n.id n) [] = _
    rw [loadNodes_eq_map ns [] hnd (by simp)]
    simp
  have hinv :
      (∀ p ∈ (GraphStore.load st0 ns es).edges,
        (alookup (GraphStore.load st0 ns es).nodes p.2.from_node).isSome = true ∧
        (alookup (GraphStore.load st0 ns es).nodes p.2.to_node).isSome = true ∧
        p.2 ∈ es ∧ p.1 = edgeKey p.2) ∧
      ((GraphStore.load st0 ns es).edges.map Prod.fst).Nodup := by
    have base :
        (fun (acc : List (Str × GraphEdge)) =>
          (∀ p ∈ acc,
            (alookup (GraphStore.load st0 ns es).nodes p.2.from_node).isSome = true ∧
            (alookup (GraphStore.load st0 ns es).nodes p.2.to_node).isSome = true ∧
            p.2 ∈ es ∧ p.1 = edgeKey p.2) ∧
          (acc.map Prod.fst).Nodup) ([] : List (Str × GraphEdge)) := by
      constructor
      · intro p hp; simp at hp
      · simp
    have hstep : ∀ (acc : List (Str × GraphEdge)) (e : GraphEdge), e ∈ es →
        ((∀ p ∈ acc,
          (alookup (GraphStore.load st0 ns es).nodes p.2.from_node).isSome = true ∧
          (alookup (GraphStore.load st0 ns es).nodes p.2.to_node).isSome = true ∧
          p.2 ∈ es ∧ p.1 = edgeKey p.2) ∧ (acc.map Prod.fst).Nodup) →
        ((∀ p ∈ (if (alookup (GraphStore.load st0 ns es).nodes e.from_node).isSome ∧
              (alookup (GraphStore.load st0 ns es).nodes e.to_node).isSome ∧
              alookup acc (edgeKey e) = none
            then acc ++ [(edgeKey e, e)] else acc),
          (alookup (GraphStore.load st0 ns es).nodes p.2.from_node).isSome = true ∧
          (alookup (GraphStore.load st0 ns es).nodes p.2.to_node).isSome = true ∧
          p.2 ∈ es ∧ p.1 = edgeKey p.2) ∧
         (((if (alookup (GraphStore.load st0 ns es).nodes e.from_node).isSome ∧
              (alookup (GraphStore.load st0 ns es).nodes e.to_node).isSome ∧
              alookup acc (edgeKey e) = none
            then acc ++ [(edgeKey e, e)] else acc)).map Prod.fst).Nodup) := by
      intro acc e hmem ⟨hall, hkeys⟩
      by_cases hc : (alookup (GraphStore.load st0 ns es).nodes e.from_node).isSome ∧
          (alookup (GraphStore.load st0 ns es).nodes e.to_node).isSome ∧
          alookup acc (edgeKey e) = none
      · rw [if_pos hc]
        constructor
        · intro p hp
          rcases List.mem_append.mp hp with h1 | h2
          · exact hall p h1
          · rcases List.mem_singleton.mp h2 with rfl
            exact ⟨hc.1, hc.2.1, hmem, rfl⟩
        · have hfresh : edgeKey e ∉ acc.map Prod.fst :=
            (alookup_eq_none_iff acc (edgeKey e)).mp hc.2.2
          simp only [List.map_append, List.map_cons, List.map_nil]
          simp [List.nodup_append, hkeys, hfresh]
      · rw [if_neg hc]; exact ⟨hall, hkeys⟩
    exact foldl_preserve_mem _ _ es hstep [] base
  refine ⟨?_, ?_, ?_, ?_⟩
  · intro n hn
    show alookup (GraphStore.load st0 ns es).nodes n.id = some n
    rw [hnodes]
    exact alookup_map_of_mem ns n hnd hn
  · intro id v hv
    rw [GraphStore.getNode, hnodes] at hv
    exact alookup_map_inv ns id v hv
  · intro p hp
    rcases hinv.1 p hp with ⟨h1, h2, h3, _⟩
    exact ⟨h1, h2, h3⟩
  · have hkeys := hinv.2
    have hmapeq : (GraphStore.load st0 ns es).edges.map Prod.fst =
        ((GraphStore.load st0 ns es).edges.map (fun p => tripleOf p.2)).map
          tripleKeyStr := by
      rw [List.map_map]
      refine List.map_congr_left ?_
      intro p hp
      rcases hinv.1 p hp with ⟨_, _, _, h4⟩
      exact h4
    rw [hmapeq] at hkeys
    exact hkeys.of_map tripleKeyStr

/-- Witness for C6: a two-node store with one duplicate and one dangling
edge keeps exactly the surviving edge with both endpoints present. -/
theorem graph_store_load_invariants_witness :
    ((([⟨str "Entity:A", KDDKind.entity, str "p", str "h", KDDLayer.domain,
        str "draft", [], none, [], str "t"⟩,
       ⟨str "Entity:B", KDDKind.entity, str "p", str "h", KDDLayer.domain,
        str "draft", [], none, [], str "t"⟩] :
        List GraphNode).map GraphNode.id).Nodup) ∧
    (∀ n ∈ ([⟨str "Entity:A", KDDKind.entity, str "p", str "h", KDDLayer.domain,
        str "draft", [], none, [], str "t"⟩,
       ⟨str "Entity:B", KDDKind.entity, str "p", str "h", KDDLayer.domain,
        str "draft", [], none, [], str "t"⟩] : List GraphNode),
      (GraphStore.load ⟨[], []⟩
        [⟨str "Entity:A", KDDKind.entity, str "p", str "h", KDDLayer.domain,
          str "draft", [], none, [], str "t"⟩,
         ⟨str "Entity:B", KDDKind.entity, str "p", str "h", KDDLayer.domain,
          str "draft", [], none, [], str "t"⟩]
        [⟨str "Entity:A", str "Entity:B", str "WIKI_LINK", str "p", str "m", [],
          false, true⟩]).getNode n.id = some n) :=
  ⟨by decide,
   (graph_store_load_invariants ⟨[], []⟩ _ _ (by decide)).1⟩

-- ── Claim C4 ─────────────────────────────────────────────────────────

theorem covered_ne_missing : str "covered" ≠ str "missing" := by decide

theorem missing_ne_covered : str "missing" ≠ str "covered" := by decide

theorem coverageCollect_grows (nodeId edgeType : Str) :
    ∀ (es : List GraphEdge) (acc : List Str), acc ≠ [] →
      es.foldl (fun foundIds e =>
        if e.edge_type = edgeType then
          let other := if e.from_node = nodeId then e.to_node else e.from_node
          if foundIds.contains other then foundIds else foundIds ++ [other]
        else foundIds) acc ≠ [] := by
  intro es
  induction es with
  | nil => intro acc h; exact h
  | cons e rest ih =>
    intro acc h
    simp only [List.foldl_cons]
    apply ih
    by_cases ht : e.edge_type = edgeType
    · rw [if_pos ht]
      by_cases hc :
          acc.contains (if e.from_node = nodeId then e.to_node else e.from_node) = true
      · rw [if_pos hc]; exact h
      · rw [if_neg hc]; simp
    · rw [if_neg ht]; exact h

theorem coverageCollect_ne_nil_iff (nodeId edgeType : Str) :
    ∀ es : List GraphEdge,
      coverageCollect es nodeId edgeType ≠ [] ↔ ∃ e ∈ es, e.edge_type = edgeType := by
  have main : ∀ (es : List GraphEdge) (acc : List Str),
      (es.foldl (fun foundIds e =>
        if e.edge_type = edgeType then
          let other := if e.from_node = nodeId then e.to_node else e.from_node
          if foundIds.contains other then foundIds else foundIds ++ [other]
        else foundIds) acc ≠ []) ↔
      (acc ≠ [] ∨ ∃ e ∈ es, e.edge_type = edgeType) := by
    intro es
    induction es with
    | nil => intro acc; simp
    | cons e rest ih =>
      intro acc
      simp only [List.foldl_cons]
      by_cases ht : e.edge_type = edgeType
      · constructor
        · intro _
          right
          exact ⟨e, List.mem_cons_self e rest, ht⟩
        · intro _
          rw [if_pos ht]
          by_cases hc :
              acc.contains (if e.from_node = nodeId then e.to_node else e.from_node)
                = true
          · rw [if_pos hc]
            have hne : acc ≠ [] := by
              intro he; rw [he] at hc; simp [List.contains] at hc
            exact coverageCollect_grows nodeId edgeType rest acc hne
          · rw [if_neg hc]
            apply coverageCollect_grows nodeId edgeType rest
            simp
      · rw [if_neg ht]
        rw [ih acc]
        constructor
        · rintro (h1 | ⟨f, hf, hft⟩)
          · exact Or.inl h1
          · exact Or.inr ⟨f, List.mem_cons_of_mem e hf, hft⟩
        · rintro (h1 | ⟨f, hf, hft⟩)
          · exact Or.inl h1
          · rcases List.mem_cons.mp hf with rfl | hf2
            · exact absurd hft ht
            · exact Or.inr ⟨f, hf2, hft⟩
  intro es
  rw [show coverageCollect es nodeId edgeType = es.foldl (fun foundIds e =>
        if e.edge_type = edgeType then
          let other := if e.from_node = nodeId then e.to_node else e.from_node
          if foundIds.contains other then foundIds else foundIds ++ [other]
        else foundIds) [] from rfl, main es []]
  simp

theorem coverageLoop_len (allEdges : List GraphEdge) (nodeId : Str) :
    ∀ rules : List (Str × Str × Str),
      (coverageLoop allEdges nodeId rules).1.length = rules.length := by
  intro rules
  induction rules with
  | nil => rfl
  | cons rule rest ih =>
    obtain ⟨catName, catDesc, edgeType⟩ := rule
    by_cases hne : coverageCollect allEdges nodeId edgeType ≠ []
    · simp only [coverageLoop, if_pos hne, List.length_cons, ih]
    · simp only [coverageLoop, if_neg hne, List.length_cons, ih]

theorem coverageLoop_counts (allEdges : List GraphEdge) (nodeId : Str) :
    ∀ rules : List (Str × Str × Str),
      (coverageLoop allEdges nodeId rules).2.1 =
        ((coverageLoop allEdges nodeId rules).1.filter
          (fun c => c.status = str "covered")).length ∧
      (coverageLoop allEdges nodeId rules).2.2 =
        ((coverageLoop allEdges nodeId rules).1.filter
          (fun c => c.status = str "missing")).length ∧
      (coverageLoop allEdges nodeId rules).2.1 +
        (coverageLoop allEdges nodeId rules).2.2 = rules.length := by
  intro rules
  induction rules with
  | nil => exact ⟨rfl, rfl, rfl⟩
  | cons rule rest ih =>
    obtain ⟨catName, catDesc, edgeType⟩ := rule
    rcases ih with ⟨ih1, ih2, ih3⟩
    by_cases hne : coverageCollect allEdges nodeId edgeType ≠ []
    · simp only [coverageLoop, if_pos hne]
      refine ⟨?_, ?_, ?_⟩
      · rw [List.filter_cons_of_pos (by simp)]
        simp only [List.length_cons, ih1]
      · rw [List.filter_cons_of_neg (by simp [covered_ne_missing])]
        exact ih2
      · simp only [List.length_cons]
        omega
    · simp only [coverageLoop, if_neg hne]
      refine ⟨?_, ?_, ?_⟩
      · rw [List.filter_cons_of_neg (by simp [missing_ne_covered])]
        exact ih1
      · rw [List.filter_cons_of_pos (by simp)]
        simp only [List.length_cons, ih2]
      · simp only [List.length_cons]
        omega

theorem coverageLoop_mem (allEdges : List GraphEdge) (nodeId : Str) :
    ∀ rules : List (Str × Str × Str),
      ∀ c ∈ (coverageLoop allEdges nodeId rules).1,
        (c.status = str "covered" ↔ c.found ≠ []) ∧
        (c.found ≠ [] ↔ ∃ e ∈ allEdges, e.edge_type = c.edge_type) := by
  intro rules
  induction rules with
  | nil => intro c hc; exact absurd hc (by simp [coverageLoop])
  | cons rule rest ih =>
    obtain ⟨catName, catDesc, edgeType⟩ := rule
    intro c hc
    by_cases hne : coverageCollect allEdges nodeId edgeType ≠ []
    · rw [show coverageLoop allEdges nodeId ((catName, catDesc, edgeType) :: rest) =
          (⟨catName, catDesc, edgeType, str "covered",
            coverageCollect allEdges nodeId edgeType⟩ ::
            (coverageLoop allEdges nodeId rest).1,
           (coverageLoop allEdges nodeId rest).2.1 + 1,
           (coverageLoop allEdges nodeId rest).2.2) from by
        simp only [coverageLoop, if_pos hne]] at hc
      rcases List.mem_cons.mp hc with rfl | hc2
      · refine ⟨⟨fun _ => hne, fun _ => rfl⟩, ?_⟩
        exact ⟨fun _ => (coverageCollect_ne_nil_iff nodeId edgeType allEdges).mp hne,
               fun _ => hne⟩
      · exact ih c hc2
    · rw [show coverageLoop allEdges nodeId ((catName, catDesc, edgeType) :: rest) =
          (⟨catName, catDesc, edgeType, str "missing", []⟩ ::
            (coverageLoop allEdges nodeId rest).1,
           (coverageLoop allEdges nodeId rest).2.1,
           (coverageLoop allEdges nodeId rest).2.2 + 1) from by
        simp only [coverageLoop, if_neg hne]] at hc
      rcases List.mem_cons.mp hc with rfl | hc2
      · constructor
        · exact ⟨fun habs => absurd habs missing_ne_covered,
                 fun habs => absurd rfl habs⟩
        · refine ⟨fun habs => absurd rfl habs, fun hex => ?_⟩
          exact absurd ((coverageCollect_ne_nil_iff nodeId edgeType allEdges).mpr hex)
            hne
      · exact ih c hc2

theorem coverage_rules_nonempty :
    ∀ (k : KDDKind) (rules : List (Str × Str × Str)),
      COVERAGE_RULES k = some rules → rules ≠ [] := by
  intro k rules h
  cases k <;> simp [COVERAGE_RULES] at h <;> simp [← h]

/-- Claim C4 (amended): the coverage percent of a successful coverage query
is `round(1000·present/(present+missing))/10` — a value on the 0–100 percent
scale — where `present` counts the categories having at least one incident
edge of the required type and `missing` the others. -/
theorem coverage_percent_formula (st : GraphStore) (nodeId : Str)
    (res : CoverageQueryResult) (h : coverageQuery st nodeId = .ok res) :
    res.present = (res.categories.filter (fun c => c.status = str "covered")).length ∧
    res.missing = (res.categories.filter (fun c => c.status = str "missing")).length ∧
    (∀ c ∈ res.categories,
      (c.status = str "covered" ↔
        ∃ e ∈ st.incomingEdges nodeId ++ st.outgoingEdges nodeId,
          e.edge_type = c.edge_type)) ∧
    0 < res.present + res.missing ∧
    res.coveragePercent =
      ((round (((res.present : ℚ) / ((res.present : ℚ) + (res.missing : ℚ))) * 1000)
        : ℤ) : ℚ) / 10 := by
  unfold coverageQuery at h
  split at h
  · exact absurd h (by simp)
  · split at h
    · exact absurd h (by simp)
    · rename_i node hnode
      split at h
      · exact absurd h (by simp)
      · rename_i rules hrules
        dsimp only at h
        rcases coverageLoop_counts
          (st.incomingEdges nodeId ++ st.outgoingEdges nodeId) nodeId rules
          with ⟨hs1, hs2, hs3⟩
        have hmem := coverageLoop_mem
          (st.incomingEdges nodeId ++ st.outgoingEdges nodeId) nodeId rules
        have hpos : 0 < (coverageLoop
            (st.incomingEdges nodeId ++ st.outgoingEdges nodeId) nodeId rules).2.1 +
            (coverageLoop
            (st.incomingEdges nodeId ++ st.outgoingEdges nodeId) nodeId rules).2.2 := by
          rw [hs3]
          have hnonempty := coverage_rules_nonempty node.kind rules hrules
          cases rules with
          | nil => exact absurd rfl hnonempty
          | cons a l => simp
        rw [if_pos hpos] at h
        cases h
        refine ⟨hs1, hs2, ?_, hpos, by push_cast; rfl⟩
        intro c hc
        rcases hmem c hc with ⟨hc1, hc2⟩
        exact hc1.trans hc2

/-- Counterexample for C4: one covered category out of one gives percent
100, while the claimed formula `round(10·present/(present+missing))/10`
gives 1. -/
theorem coverage_percent_formula_cex :
    ((coverageQuery fixCovStore (str "REQ:R1")).toOption.map
      (fun r => (r.present, r.missing))) = some (1, 0) ∧
    ((coverageQuery fixCovStore (str "REQ:R1")).toOption.map
      (fun r => r.coveragePercent)) = some 100 ∧
    ((round (((10 : ℚ) * 1) / ((1 : ℚ) + 0)) : ℤ) : ℚ) / 10 = 1 ∧
    (100 : ℚ) ≠ 1 := by
  have hq : coverageQuery fixCovStore (str "REQ:R1") = .ok
      ⟨fixReqNode,
       [⟨str "traces", str "Artifacts this requirement traces to",
         str "REQ_TRACES_TO", str "covered", [str "UC:U1"]⟩],
       1, 0, ((round ((((1 : ℕ) : ℚ) / ((1 : ℕ) : ℚ)) * 1000) : ℤ) : ℚ) / 10⟩ := by
    rfl
  refine ⟨?_, ?_, by norm_num [round_eq], by norm_num⟩
  · rw [hq]; rfl
  · rw [hq]
    show some _ = some (100 : ℚ)
    norm_num [round_eq]

/-- Witness for C4: the amended formula holds on the concrete store. -/
theorem coverage_percent_formula_witness :
    (coverageQuery fixCovStore (str "REQ:R1")).isOk = true ∧
    ∀ res, coverageQuery fixCovStore (str "REQ:R1") = .ok res →
      res.coveragePercent =
        ((round (((res.present : ℚ) / ((res.present : ℚ) + (res.missing : ℚ))) * 1000)
          : ℤ) : ℚ) / 10 :=
  ⟨by decide, fun res h =>
    (coverage_percent_formula fixCovStore (str "REQ:R1") res h).2.2.2.2⟩

-- ── Claim C3 ─────────────────────────────────────────────────────────

/-- Claim C3 (amended): a zero-norm query yields no results; every returned
entry comes from a stored vector of nonzero norm (a zero-norm stored vector
has NaN similarity and only that vector is discarded, not the whole result
list), carries its true cosine score, which is at least `minScore`; and at
most `limit` entries are returned, sorted by score descending. -/
theorem vector_search_guarantees (st : VectorStore) (q : List ℚ) (limit : ℕ)
    (minScore : ℝ) :
    (sumsq q = 0 → st.search q limit minScore = []) ∧
    (st.search q limit minScore).length ≤ limit ∧
    List.Pairwise (fun a b => b.2 ≤ a.2) (st.search q limit minScore) ∧
    (∀ p ∈ st.search q limit minScore,
       minScore ≤ p.2 ∧
       ∃ pr ∈ st.ids.zip st.vectors, pr.1 = p.1 ∧ sumsq pr.2 ≠ 0 ∧
         cosineSim q pr.2 = some p.2) := by
  by_cases hlen : st.ids.length = 0
  · rw [VectorStore.search, if_pos hlen]
    refine ⟨fun _ => rfl, by simp, by simp, by simp⟩
  · by_cases hq : sumsq q = 0
    · rw [VectorStore.search, if_neg hlen, if_pos hq]
      refine ⟨fun _ => rfl, by simp, by simp, by simp⟩
    · rw [VectorStore.search, if_neg hlen, if_neg hq]
      refine ⟨fun hc => absurd hc hq, ?_, ?_, ?_⟩
      · rw [List.length_take]
        exact min_le_left _ _
      · apply List.Pairwise.sublist (List.take_sublist _ _)
        unfold sortByScoreDesc
        exact List.sorted_insertionSort _ _
      · intro p hp
        have hp2 : p ∈ sortByScoreDesc ((st.ids.zip st.vectors).filterMap
            (fun pr => match cosineSim q pr.2 with
              | none => none
              | some sim => if minScore ≤ sim then some (pr.1, sim) else none)) :=
          List.mem_of_mem_take hp
        have hp3 : p ∈ (st.ids.zip st.vectors).filterMap
            (fun pr => match cosineSim q pr.2 with
              | none => none
              | some sim => if minScore ≤ sim then some (pr.1, sim) else none) :=
          (List.perm_insertionSort _ _).mem_iff.mp hp2
        rcases List.mem_filterMap.mp hp3 with ⟨pr, hmem, hf⟩
        cases hcos : cosineSim q pr.2 with
        | none =>
          simp only [hcos] at hf
          exact Option.noConfusion hf
        | some sim =>
          simp only [hcos] at hf
          by_cases hge : minScore ≤ sim
          · rw [if_pos hge] at hf
            cases hf
            have hnz : sumsq pr.2 ≠ 0 := by
              intro hz
              rw [cosineSim, if_pos (by rw [hz, mul_zero])] at hcos
              cases hcos
            exact ⟨hge, pr, hmem, rfl, hnz, hcos⟩
          · rw [if_neg hge] at hf; cases hf

/-- Witness for C3: the zero-norm-query branch at a concrete store. -/
theorem vector_search_guarantees_witness :
    sumsq [(0 : ℚ)] = 0 ∧
    VectorStore.search fixVecStore [(0 : ℚ)] 5 0 = [] := by
  have hz : sumsq [(0 : ℚ)] = 0 := by norm_num [sumsq]
  exact ⟨hz, (vector_search_guarantees fixVecStore [(0 : ℚ)] 5 0).1 hz⟩

/-- Counterexample for C3: the store holds a zero-norm vector, yet the
search still returns the other vector — the claim's "no results when any
stored norm is zero" is false. -/
theorem vector_search_zero_vector_cex :
    sumsq [(0 : ℚ)] = 0 ∧ fixVecStore.vectors.contains [(0 : ℚ)] = true ∧
    VectorStore.search fixVecStore [(1 : ℚ)] 5 0 = [(str "b", 1)] := by
  have hzero : cosineSim [(1 : ℚ)] [(0 : ℚ)] = none := by
    rw [cosineSim, if_pos (by norm_num [sumsq])]
  have hone : cosineSim [(1 : ℚ)] [(1 : ℚ)] = some 1 := by
    rw [cosineSim, if_neg (by norm_num [sumsq])]
    norm_num [sumsq, dotQ, Real.sqrt_one]
  refine ⟨by norm_num [sumsq], by decide, ?_⟩
  rw [VectorStore.search, if_neg (by decide), if_neg (by norm_num [sumsq])]
  show (sortByScoreDesc ((fixVecStore.ids.zip fixVecStore.vectors).filterMap
      (fun pr => match cosineSim [(1 : ℚ)] pr.2 with
        | none => none
        | some sim => if (0 : ℝ) ≤ sim then some (pr.1, sim) else none))).take 5 =
    [(str "b", 1)]
  have hzip : fixVecStore.ids.zip fixVecStore.vectors =
      [(str "a", [(0 : ℚ)]), (str "b", [(1 : ℚ)])] := by decide
  rw [hzip]
  rw [List.filterMap_cons, List.filterMap_cons, List.filterMap_nil]
  simp only [hzero, hone]
  rw [if_pos (by norm_num : (0 : ℝ) ≤ 1)]
  simp [sortByScoreDesc, List.insertionSort, List.orderedInsert]

-- ── Claim C1 ─────────────────────────────────────────────────────────

theorem fusion_lex_half : computeFusionScore [(str "lexical", 1/2)] = 1/24 := by
  rw [computeFusionScore]
  rw [show getAssocD [(str "lexical", (1 : ℚ)/2)] (str "semantic") 0 = 0 from by
    rw [getAssocD, alookup_cons, if_neg (by decide), alookup]; rfl]
  rw [show getAssocD [(str "lexical", (1 : ℚ)/2)] (str "graph") 0 = 0 from by
    rw [getAssocD, alookup_cons, if_neg (by decide), alookup]; rfl]
  rw [show getAssocD [(str "lexical", (1 : ℚ)/2)] (str "lexical") 0 = 1/2 from by
    rw [getAssocD, alookup_cons, if_pos rfl]; rfl]
  rw [show (([(str "lexical", (1 : ℚ)/2)].map (·.2)).filter (fun v => 0 < v)).length
      = 1 from by
    simp only [List.map_cons, List.map_nil]
    rw [List.filter_cons_of_pos (by norm_num), List.filter_nil]
    rfl]
  norm_num

theorem traverse_single (n : GraphNode) :
    GraphStore.traverse ⟨[(n.id, n)], []⟩ n.id 2 none true = ([n], []) := by
  rw [GraphStore.traverse]
  rw [if_neg (by simp [GraphStore.hasNode, alookup_cons])]
  simp [traverseLoop, visitEdges, GraphStore.outEdgeList, GraphStore.inEdgeList,
    GraphStore.getNode, alookup_cons, dedupEdgesByKey]

theorem dms_lex : determineMatchSource [(str "lexical", 1/2)] = str "lexical" := by
  rw [determineMatchSource]
  rw [show getAssocD [(str "lexical", (1 : ℚ)/2)] (str "semantic") 0 = 0 from by
    rw [getAssocD, alookup_cons, if_neg (by decide), alookup]; rfl]
  rw [show getAssocD [(str "lexical", (1 : ℚ)/2)] (str "graph") 0 = 0 from by
    rw [getAssocD, alookup_cons, if_neg (by decide), alookup]; rfl]
  norm_num

theorem hybrid_single_node_core (n : GraphNode)
    (hmatch : nodeMatchesText n (lowerStr (str "impact analysis")) none = true)
    (m : ℚ) :
    hybridSearch { queryText := str "impact analysis", minScore := m }
      ⟨[(n.id, n)], []⟩ none =
    .ok (if computeFusionScore [(str "lexical", 1/2)] < m then
      ⟨[], [], 0, 0, [str "NO_EMBEDDINGS: index is L1, semantic search skipped"]⟩
    else
      ⟨[⟨n.id, computeFusionScore [(str "lexical", 1/2)], buildSnippet n, str "lexical"⟩],
       [], 1, countTokens (buildSnippet n),
       [str "NO_EMBEDDINGS: index is L1, semantic search skipped"]⟩) := by
  have htrim : ¬ ((trimStr (str "impact analysis")).length < 3) := by decide
  have htext : GraphStore.textSearch ⟨[(n.id, n)], []⟩ (str "impact analysis") none
      = [n] := by
    simp only [GraphStore.textSearch]
    simp only [List.map_cons, List.map_nil]
    simp only [List.filter_cons, hmatch, if_true, List.filter_nil]
  simp only [hybridSearch, htrim, if_false, htext]
  simp only [List.foldl_cons, List.foldl_nil, kindLayerFilter, if_true,
    updateScore, getAssocD, alookup, setAssoc, Option.getD, graphPhase,
    List.map_cons, List.map_nil, GraphStore.hasNode, alookup_cons,
    eq_self_iff_true, if_pos, Option.isSome, traverse_single, fusionPhase,
    GraphStore.getNode, dedupEdgesByKey, List.append_nil, dms_lex]
  simp only [Bool.and_self, if_true, eq_self_iff_true, traverse_single,
    List.map_cons, List.map_nil, List.foldl_cons, List.foldl_nil, alookup_cons,
    setAssoc, alookup, List.append_nil, List.nil_append, dedupKey, dms_lex,
    Bool.true_eq_false, if_false, List.length_nil, List.length_cons]
  by_cases hm : computeFusionScore [(str "lexical", 1/2)] < m
  · simp only [hm, if_true, List.insertionSort, truncateLoop, List.length_nil,
      List.foldl_nil]
  · simp only [hm, if_false, List.insertionSort, List.orderedInsert,
      truncateLoop, List.length_nil, List.length_cons, List.nil_append,
      Nat.zero_add, List.foldl_nil]
    norm_num

/-- Claim C1 (amended): with the vector store and encoder absent, a store
holding exactly one node whose searched text contains "impact analysis" and
no edges yields the warning `NO_EMBEDDINGS`; the node is the only evidenced
candidate, with `match_source = "lexical"` and fused score
`0.5·0.1/1.2 = 1/24 ≈ 0.042` — so the result list is empty under the default
`minScore = 0.5` and still empty under `minScore = 0.05`, while
`minScore = 0.04` returns exactly that one result. -/
theorem hybrid_lexical_degradation (n : GraphNode)
    (hmatch : nodeMatchesText n (lowerStr (str "impact analysis")) none = true) :
    (hybridSearch { queryText := str "impact analysis" } ⟨[(n.id, n)], []⟩ none =
      .ok ⟨[], [], 0, 0,
        [str "NO_EMBEDDINGS: index is L1, semantic search skipped"]⟩) ∧
    (hybridSearch { queryText := str "impact analysis", minScore := 1/20 }
        ⟨[(n.id, n)], []⟩ none =
      .ok ⟨[], [], 0, 0,
        [str "NO_EMBEDDINGS: index is L1, semantic search skipped"]⟩) ∧
    (hybridSearch { queryText := str "impact analysis", minScore := 1/25 }
        ⟨[(n.id, n)], []⟩ none =
      .ok ⟨[⟨n.id, 1/24, buildSnippet n, str "lexical"⟩], [], 1,
        countTokens (buildSnippet n),
        [str "NO_EMBEDDINGS: index is L1, semantic search skipped"]⟩) := by
  refine ⟨?_, ?_, ?_⟩
  · rw [hybrid_single_node_core n hmatch,
      if_pos (by rw [fusion_lex_half]; norm_num)]
  · rw [hybrid_single_node_core n hmatch,
      if_pos (by rw [fusion_lex_half]; norm_num)]
  · rw [hybrid_single_node_core n hmatch,
      if_neg (by rw [fusion_lex_half]; norm_num), fusion_lex_half]

/-- Counterexample for C1: on the concrete matching store, `minScore = 0.05`
returns an empty result list (the claim promises exactly one result), and
the actual fused score is 1/24, not 0.1/1.2 = 1/12. -/
theorem hybrid_lexical_degradation_cex :
    nodeMatchesText fixImpactNode (lowerStr (str "impact analysis")) none = true ∧
    hybridSearch { queryText := str "impact analysis", minScore := 1/20 }
      fixImpactStore none =
      .ok ⟨[], [], 0, 0,
        [str "NO_EMBEDDINGS: index is L1, semantic search skipped"]⟩ ∧
    computeFusionScore [(str "lexical", 1/2)] = 1/24 ∧ (1/24 : ℚ) ≠ 1/12 := by
  have hmatch :
      nodeMatchesText fixImpactNode (lowerStr (str "impact analysis")) none
        = true := by decide
  refine ⟨hmatch, ?_, fusion_lex_half, by norm_num⟩
  rw [show fixImpactStore = ⟨[(fixImpactNode.id, fixImpactNode)], []⟩ from rfl]
  rw [hybrid_single_node_core fixImpactNode hmatch,
    if_pos (by rw [fusion_lex_half]; norm_num)]

/-- Witness for C1: the amended statement at the concrete node. -/
theorem hybrid_lexical_degradation_witness :
    nodeMatchesText fixImpactNode (lowerStr (str "impact analysis")) none = true ∧
    hybridSearch { queryText := str "impact analysis", minScore := 1/25 }
      ⟨[(fixImpactNode.id, fixImpactNode)], []⟩ none =
      .ok ⟨[⟨fixImpactNode.id, 1/24, buildSnippet fixImpactNode, str "lexical"⟩],
        [], 1, countTokens (buildSnippet fixImpactNode),
        [str "NO_EMBEDDINGS: index is L1, semantic search skipped"]⟩ :=
  ⟨by decide, (hybrid_lexical_degradation fixImpactNode (by decide)).2.2⟩

-- ── Claim C7 ─────────────────────────────────────────────────────────

theorem breakOnSep_nil (sep : Str) : breakOnSep sep [] = none := rfl

theorem breakOnSep_cons (sep : Str) (c : Char) (rest : Str) :
    breakOnSep sep (c :: rest) =
      if leadsWith sep (c :: rest) then some ([], (c :: rest).drop sep.length)
      else
        match breakOnSep sep rest with
        | some (pre, post) => some (c :: pre, post)
        | none => none := rfl

theorem breakOnSep_nl2_no_nl :
    ∀ s : Str, (∀ c ∈ s, c ≠ nlChar) → breakOnSep nl2 s = none := by
  intro s
  induction s with
  | nil => intro _; rfl
  | cons c rest ih =>
    intro h
    rw [breakOnSep_cons]
    have hc : c ≠ nlChar := h c (List.mem_cons_self c rest)
    have hlw : leadsWith nl2 (c :: rest) = false := by
      show leadsWith (nlChar :: [nlChar]) (c :: rest) = false
      show ((nlChar == c) && leadsWith [nlChar] rest) = false
      have : (nlChar == c) = false := by
        rw [beq_eq_false_iff_ne]
        exact fun he => hc he.symm
      rw [this, Bool.false_and]
    rw [hlw]
    simp only [Bool.false_eq_true, if_false]
    rw [ih (fun x hx => h x (List.mem_cons_of_mem c hx))]

theorem breakOnSep_nl2_mid :
    ∀ (p1 p2 : Str), (∀ c ∈ p1, c ≠ nlChar) →
      breakOnSep nl2 (p1 ++ nl2 ++ p2) = some (p1, p2) := by
  intro p1
  induction p1 with
  | nil =>
    intro p2 _
    show breakOnSep nl2 (nlChar :: nlChar :: p2) = some ([], p2)
    rw [breakOnSep_cons]
    have hlw : leadsWith nl2 (nlChar :: nlChar :: p2) = true := by
      show ((nlChar == nlChar) && ((nlChar == nlChar) && true)) = true
      simp
    rw [hlw, if_pos rfl]
    rfl
  | cons c p1' ih =>
    intro p2 h
    have hc : c ≠ nlChar := h c (List.mem_cons_self c p1')
    show breakOnSep nl2 (c :: (p1' ++ nl2 ++ p2)) = some (c :: p1', p2)
    rw [breakOnSep_cons]
    have hlw : leadsWith nl2 (c :: (p1' ++ nl2 ++ p2)) = false := by
      show ((nlChar == c) && leadsWith [nlChar] (p1' ++ nl2 ++ p2)) = false
      have : (nlChar == c) = false := by
        rw [beq_eq_false_iff_ne]
        exact fun he => hc he.symm
      rw [this, Bool.false_and]
    rw [hlw]
    simp only [Bool.false_eq_true, if_false]
    rw [ih p2 (fun x hx => h x (List.mem_cons_of_mem c hx))]

theorem splitOnSubstrFuel_of_none (sep : Str) :
    ∀ (fuel : ℕ) (s : Str), breakOnSep sep s = none →
      splitOnSubstrFuel sep fuel s = [s] := by
  intro fuel s h
  cases fuel with
  | zero => rfl
  | succ fuel' =>
    show (match breakOnSep sep s with
      | none => [s]
      | some (pre, post) => pre :: splitOnSubstrFuel sep fuel' post) = [s]
    rw [h]

theorem splitOnSubstr_of_none (sep : Str) (s : Str) (hsep : sep ≠ [])
    (h : breakOnSep sep s = none) : splitOnSubstr sep s = [s] := by
  rw [splitOnSubstr, if_neg hsep]
  exact splitOnSubstrFuel_of_none sep (s.length + 1) s h

theorem hasSubstr_false_break (sep s : Str) (hsep : sep ≠ [])
    (h : hasSubstr sep s = false) : breakOnSep sep s = none := by
  rw [hasSubstr, if_neg hsep] at h
  cases hb : breakOnSep sep s with
  | none => rfl
  | some p => rw [hb] at h; simp at h

theorem splitOnSubstr_nl2_two (p1 p2 : Str)
    (h1 : ∀ c ∈ p1, c ≠ nlChar) (h2 : ∀ c ∈ p2, c ≠ nlChar) :
    splitOnSubstr nl2 (p1 ++ nl2 ++ p2) = [p1, p2] := by
  rw [splitOnSubstr, if_neg (by decide)]
  have hlen : (p1 ++ nl2 ++ p2).length + 1 = (p1 ++ nl2 ++ p2).length + 1 := rfl
  show splitOnSubstrFuel nl2 ((p1 ++ nl2 ++ p2).length + 1) (p1 ++ nl2 ++ p2)
    = [p1, p2]
  rw [show splitOnSubstrFuel nl2 ((p1 ++ nl2 ++ p2).length + 1) (p1 ++ nl2 ++ p2) =
    (match breakOnSep nl2 (p1 ++ nl2 ++ p2) with
      | none => [p1 ++ nl2 ++ p2]
      | some (pre, post) =>
        pre :: splitOnSubstrFuel nl2 ((p1 ++ nl2 ++ p2).length) post) from rfl]
  rw [breakOnSep_nl2_mid p1 p2 h1]
  show p1 :: splitOnSubstrFuel nl2 (List.length (p1 ++ nl2 ++ p2)) p2 = [p1, p2]
  rw [splitOnSubstrFuel_of_none nl2 _ p2 (breakOnSep_nl2_no_nl p2 h2)]

theorem sentClusters_no_boundary :
    ∀ (rest : Str) (fuel : ℕ) (acc : Str), rest.length < fuel →
      List.Chain' (fun a b => ¬(a = dotChar ∧ b.isWhitespace = true))
        (acc.reverse ++ rest) →
      sentClusters fuel acc rest = [acc.reverse ++ rest] := by
  intro rest
  induction rest with
  | nil =>
    intro fuel acc hf _
    cases fuel with
    | zero => omega
    | succ fuel' => simp [sentClusters]
  | cons c rest' ih =>
    intro fuel acc hf hch
    cases fuel with
    | zero => omega
    | succ fuel' =>
      have hnb : ¬ (acc.headD (Char.ofNat 0) = dotChar ∧ c.isWhitespace = true) := by
        cases acc with
        | nil =>
          intro ⟨ha, _⟩
          rw [List.headD_nil] at ha
          exact absurd ha (by decide)
        | cons a acc' =>
          intro ⟨ha, hw⟩
          rw [List.headD_cons] at ha
          have hpair := (List.chain'_append.mp hch).2.2
          have := hpair a (by
              rw [List.getLast?_reverse]
              rfl) c (by rfl)
          exact this ⟨ha, hw⟩
      rw [show sentClusters (fuel' + 1) acc (c :: rest') =
        (if acc.headD (Char.ofNat 0) = dotChar ∧ c.isWhitespace = true then
          acc.reverse :: sentClusters fuel' [] (rest'.dropWhile Char.isWhitespace)
        else sentClusters fuel' (c :: acc) rest') from rfl]
      rw [if_neg hnb]
      have heq : (c :: acc).reverse ++ rest' = acc.reverse ++ c :: rest' := by
        rw [List.reverse_cons, List.append_assoc]
        rfl
      rw [ih fuel' (c :: acc) (by simpa using hf) (by rw [heq]; exact hch), heq]

theorem trimStr_ne_nil_of (body : Str) (htr : trimStr body = body)
    (hne : body ≠ []) : trimStr body ≠ [] := by
  rw [htr]; exact hne

theorem splitSentences_no_boundary (body : Str) (htr : trimStr body = body)
    (hne : body ≠ [])
    (hnb : List.Chain' (fun a b => ¬(a = dotChar ∧ b.isWhitespace = true)) body) :
    splitSentences body = [body] := by
  rw [splitSentences]
  rw [sentClusters_no_boundary body (body.length + 1) [] (by omega)
    (by simpa using hnb)]
  simp only [List.reverse_nil, List.nil_append, List.map_cons, List.map_nil, htr]
  rw [List.filter_cons_of_pos (by simpa using hne), List.filter_nil]

theorem chunkSection_content (document : KDDDocument) (identity heading : Str) :
    ∀ (parts : List (ℕ × Str)) (acc : List Chunk × ℕ),
      ((chunkSection document identity heading acc parts).1).map Chunk.content =
        acc.1.map Chunk.content ++ parts.map Prod.snd := by
  intro parts
  induction parts with
  | nil => intro acc; simp [chunkSection]
  | cons p rest ih =>
    intro acc
    rw [show chunkSection document identity heading acc (p :: rest) =
      chunkSection document identity heading
        (acc.1 ++ [chunkOfPart document identity heading acc.2 p], acc.2 + 1) rest
      from rfl]
    rw [ih]
    simp [chunkOfPart]

theorem chunkDocument_single_content (doc : KDDDocument) (maxChars overlap : ℕ)
    (heading body : Str) (lvl : ℕ) (pth : Str)
    (hsec : doc.sections = [⟨heading, lvl, body, pth⟩])
    (hemb : (embeddableSections doc.kind).contains (lowerStr heading) = true)
    (hbody : trimStr body ≠ []) :
    (chunkDocument doc maxChars overlap).map Chunk.content =
      (splitParagraphs body maxChars overlap).map Prod.snd := by
  rw [chunkDocument]
  rw [if_neg (by
    intro he
    rw [he] at hemb
    simp [List.contains] at hemb)]
  rw [hsec]
  simp only [List.foldl_cons, List.foldl_nil]
  rw [if_neg (by
    simp only [hemb]
    intro hfalse
    simp at hfalse), if_neg (by simpa using hbody)]
  rw [chunkSection_content]
  simp

theorem joinPars_single (x : Str) : joinPars [x] = x := by
  simp [joinPars, joinWith, List.intercalate]

theorem splitParagraphs_single_max (body : Str) (maxChars overlap : ℕ)
    (hns : hasSubstr nl2 body = false) (htr : trimStr body = body)
    (hne : body ≠ []) (hlen : body.length = maxChars) :
    splitParagraphs body maxChars overlap = [(0, body)] := by
  rw [splitParagraphs,
    splitOnSubstr_of_none nl2 body (by decide)
      (hasSubstr_false_break nl2 body (by decide) hns)]
  simp only [List.foldl_cons, List.foldl_nil, paraStep, htr]
  rw [if_neg hne]
  have h1 : ¬ (maxChars < body.length) := by omega
  simp [h1, joinPars_single]

theorem splitParagraphs_sentence_fallback (body : Str) (maxChars overlap : ℕ)
    (hns : hasSubstr nl2 body = false) (htr : trimStr body = body)
    (hlong : maxChars < body.length)
    (hnb : List.Chain' (fun a b => ¬(a = dotChar ∧ b.isWhitespace = true)) body) :
    splitParagraphs body maxChars overlap = [(0, body)] := by
  have hne : body ≠ [] := by
    intro he; rw [he] at hlong; simp at hlong
  rw [splitParagraphs,
    splitOnSubstr_of_none nl2 body (by decide)
      (hasSubstr_false_break nl2 body (by decide) hns)]
  simp only [List.foldl_cons, List.foldl_nil, paraStep, htr]
  rw [if_neg hne]
  rw [splitSentences_no_boundary body htr hne hnb]
  simp [hlong, sentStep, joinPars_single]

theorem splitParagraphs_two_pars (p1 p2 : Str) (maxChars overlap : ℕ)
    (h1 : ∀ c ∈ p1, c ≠ nlChar) (h2 : ∀ c ∈ p2, c ≠ nlChar)
    (ht1 : trimStr p1 = p1) (ht2 : trimStr p2 = p2)
    (hn1 : p1 ≠ []) (hn2 : p2 ≠ [])
    (hA0 : p1.length ≤ maxChars) (hB0 : p2.length ≤ maxChars)
    (hC0 : maxChars < p1.length + p2.length + 4) :
    (splitParagraphs (p1 ++ nl2 ++ p2) maxChars overlap).length = 2 := by
  have hp1len : 0 < p1.length := List.length_pos.mpr hn1
  have hp2len : 0 < p2.length := List.length_pos.mpr hn2
  have hA : ¬ (maxChars < p1.length) := by omega
  have hB : ¬ (maxChars < p2.length) := by omega
  have hC : maxChars < p1.length + 2 + p2.length + 2 := by omega
  have hstep1 : paraStep maxChars overlap ⟨[], [], 0, 0, 0⟩ p1 =
      ⟨[], [p1], p1.length + 2, 0, p1.length + 2⟩ := by
    simp only [paraStep, ht1]
    rw [if_neg hn1]
    simp [hA]
  have hstep2 :
      (paraStep maxChars overlap ⟨[], [p1], p1.length + 2, 0, p1.length + 2⟩
        p2).results.length = 1 ∧
      (paraStep maxChars overlap ⟨[], [p1], p1.length + 2, 0, p1.length + 2⟩
        p2).parts ≠ [] := by
    simp only [paraStep, ht2]
    rw [if_neg hn2]
    rw [if_pos (show maxChars < p1.length + 2 + p2.length + 2 ∧
      ([p1] : List Str) ≠ [] from ⟨hC, by simp⟩)]
    simp only [emitState]
    by_cases hov : 0 < overlap
    · by_cases hfit : p1.length ≤ overlap
      · simp [hov, hfit, hB]
      · simp [hov, hfit, hB]
    · simp [hov, hB]
  rw [splitParagraphs, splitOnSubstr_nl2_two p1 p2 h1 h2]
  simp only [List.foldl_cons, List.foldl_nil]
  rw [hstep1]
  rw [if_pos hstep2.2]
  simp [hstep2.1]

/-- Claim C7 (amended): for a document with one embeddable section, (1) a
single-paragraph trimmed body of length exactly `max_chunk_chars` produces
one chunk; (2) a two-paragraph body of `max_chunk_chars + 1` characters —
split-friendly at its paragraph boundary — produces two chunks; (3) already
a two-paragraph body of exactly `max_chunk_chars` characters produces two
chunks, because the packing loop charges two separator characters per
appended paragraph, so the one-chunk guarantee at the boundary only holds
for single-paragraph bodies; (4) a single unsplittable paragraph longer
than `max_chunk_chars` with no sentence boundary produces one chunk through
the sentence fallback. -/
theorem chunker_boundary_behavior
    (doc : KDDDocument) (maxChars overlap : ℕ) (heading body : Str) (lvl : ℕ)
    (pth : Str)
    (hsec : doc.sections = [⟨heading, lvl, body, pth⟩])
    (hemb : (embeddableSections doc.kind).contains (lowerStr heading) = true) :
    (hasSubstr nl2 body = false → trimStr body = body → body ≠ [] →
      body.length = maxChars →
      (chunkDocument doc maxChars overlap).map Chunk.content = [body]) ∧
    (∀ p1 p2 : Str, body = p1 ++ nl2 ++ p2 → (∀ c ∈ p1, c ≠ nlChar) →
      (∀ c ∈ p2, c ≠ nlChar) → trimStr p1 = p1 → trimStr p2 = p2 →
      p1 ≠ [] → p2 ≠ [] → trimStr body = body →
      p1.length + p2.length + 2 = maxChars + 1 →
      (chunkDocument doc maxChars overlap).length = 2) ∧
    (∀ p1 p2 : Str, body = p1 ++ nl2 ++ p2 → (∀ c ∈ p1, c ≠ nlChar) →
      (∀ c ∈ p2, c ≠ nlChar) → trimStr p1 = p1 → trimStr p2 = p2 →
      p1 ≠ [] → p2 ≠ [] → trimStr body = body →
      p1.length + p2.length + 2 = maxChars →
      (chunkDocument doc maxChars overlap).length = 2) ∧
    (hasSubstr nl2 body = false → trimStr body = body → maxChars < body.length →
      List.Chain' (fun a b => ¬(a = dotChar ∧ b.isWhitespace = true)) body →
      (chunkDocument doc maxChars overlap).map Chunk.content = [body]) := by
  refine ⟨?_, ?_, ?_, ?_⟩
  · intro hns htr hne hlen
    rw [chunkDocument_single_content doc maxChars overlap heading body lvl pth
      hsec hemb (trimStr_ne_nil_of body htr hne)]
    rw [splitParagraphs_single_max body maxChars overlap hns htr hne hlen]
    rfl
  · intro p1 p2 hb h1 h2 ht1 ht2 hn1 hn2 htrb hlen
    have hp1len : 0 < p1.length := List.length_pos.mpr hn1
    have hp2len : 0 < p2.length := List.length_pos.mpr hn2
    have hne : body ≠ [] := by
      rw [hb]
      simp [nl2]
    rw [show (chunkDocument doc maxChars overlap).length =
      ((chunkDocument doc maxChars overlap).map Chunk.content).length from
      (List.length_map _ _).symm]
    rw [chunkDocument_single_content doc maxChars overlap heading body lvl pth
      hsec hemb (trimStr_ne_nil_of body htrb hne)]
    rw [List.length_map, hb]
    exact splitParagraphs_two_pars p1 p2 maxChars overlap h1 h2 ht1 ht2 hn1 hn2
      (by omega) (by omega) (by omega)
  · intro p1 p2 hb h1 h2 ht1 ht2 hn1 hn2 htrb hlen
    have hp1len : 0 < p1.length := List.length_pos.mpr hn1
    have hp2len : 0 < p2.length := List.length_pos.mpr hn2
    have hne : body ≠ [] := by
      rw [hb]
      simp [nl2]
    rw [show (chunkDocument doc maxChars overlap).length =
      ((chunkDocument doc maxChars overlap).map Chunk.content).length from
      (List.length_map _ _).symm]
    rw [chunkDocument_single_content doc maxChars overlap heading body lvl pth
      hsec hemb (trimStr_ne_nil_of body htrb hne)]
    rw [List.length_map, hb]
    exact splitParagraphs_two_pars p1 p2 maxChars overlap h1 h2 ht1 ht2 hn1 hn2
      (by omega) (by omega) (by omega)
  · intro hns htr hlong hnb
    have hne : body ≠ [] := by
      intro he; rw [he] at hlong; simp at hlong
    rw [chunkDocument_single_content doc maxChars overlap heading body lvl pth
      hsec hemb (trimStr_ne_nil_of body htr hne)]
    rw [splitParagraphs_sentence_fallback body maxChars overlap hns htr hlong hnb]
    rfl

theorem dropWhile_eq_self_of_head (l : Str)
    (h : ∀ c ∈ l.head?, c.isWhitespace = false) :
    List.dropWhile Char.isWhitespace l = l := by
  cases l with
  | nil => rfl
  | cons a t =>
    have ha : a.isWhitespace = false := h a rfl
    exact List.dropWhile_cons_of_neg (by simp [ha])

theorem trimStr_eq_self (l : Str)
    (h1 : ∀ c ∈ l.head?, c.isWhitespace = false)
    (h2 : ∀ c ∈ l.getLast?, c.isWhitespace = false) :
    trimStr l = l := by
  rw [trimStr, dropWhile_eq_self_of_head l h1,
    dropWhile_eq_self_of_head l.reverse (by rw [List.head?_reverse]; exact h2),
    List.reverse_reverse]

theorem trimStr_replicate (n : ℕ) (c : Char) (hc : c.isWhitespace = false) :
    trimStr (List.replicate n c) = List.replicate n c := by
  apply trimStr_eq_self
  · intro x hx
    rw [List.eq_of_mem_replicate (List.mem_of_mem_head? hx)]
    exact hc
  · intro x hx
    rw [← List.head?_reverse] at hx
    have hm := List.mem_of_mem_head? hx
    rw [List.mem_reverse] at hm
    rw [List.eq_of_mem_replicate hm]
    exact hc

theorem fixChunkBody_head : fixChunkBody.head? = some 'a' := rfl

theorem fixChunkBody_last : fixChunkBody.getLast? = some 'b' := by
  rw [← List.head?_reverse]
  rw [show fixChunkBody =
    List.replicate 100 'a' ++ nl2 ++ List.replicate 1398 'b' from rfl]
  rw [List.reverse_append, List.reverse_append, List.reverse_replicate]
  rfl

theorem fixChunkBody_trim : trimStr fixChunkBody = fixChunkBody := by
  apply trimStr_eq_self
  · intro c hc
    rw [fixChunkBody_head] at hc
    simp only [Option.mem_def, Option.some.injEq] at hc
    rw [← hc]
    decide
  · intro c hc
    rw [fixChunkBody_last] at hc
    simp only [Option.mem_def, Option.some.injEq] at hc
    rw [← hc]
    decide

/-- Counterexample for C7: a two-paragraph body of exactly 1500 characters
(the default `max_chunk_chars`) is chunked into two chunks, not one. -/
theorem chunker_boundary_behavior_cex :
    fixChunkBody.length = 1500 ∧ trimStr fixChunkBody = fixChunkBody ∧
    (chunkDocument fixChunkDoc 1500 200).length = 2 := by
  have ht1 : trimStr (List.replicate 100 'a') = List.replicate 100 'a' :=
    trimStr_replicate 100 'a' (by decide)
  have ht2 : trimStr (List.replicate 1398 'b') = List.replicate 1398 'b' :=
    trimStr_replicate 1398 'b' (by decide)
  have hlen : fixChunkBody.length = 1500 := by
    rw [show fixChunkBody =
      List.replicate 100 'a' ++ nl2 ++ List.replicate 1398 'b' from rfl]
    rw [List.length_append, List.length_append, List.length_replicate,
      List.length_replicate, show nl2.length = 2 from rfl]
  refine ⟨hlen, fixChunkBody_trim, ?_⟩
  rw [show (chunkDocument fixChunkDoc 1500 200).length =
    ((chunkDocument fixChunkDoc 1500 200).map Chunk.content).length from
    (List.length_map _ _).symm]
  rw [chunkDocument_single_content fixChunkDoc 1500 200 (str "description")
    fixChunkBody 2 (str "description") rfl (by decide)
    (by rw [fixChunkBody_trim]; decide)]
  rw [List.length_map]
  rw [show fixChunkBody = List.replicate 100 'a' ++ nl2 ++ List.replicate 1398 'b'
    from rfl]
  refine splitParagraphs_two_pars _ _ 1500 200 ?_ ?_ ht1 ht2 (by decide) (by decide)
    (by rw [List.length_replicate]; omega) (by rw [List.length_replicate]; omega)
    (by rw [List.length_replicate, List.length_replicate]; omega)
  · intro c hc
    rw [List.eq_of_mem_replicate hc]
    decide
  · intro c hc
    rw [List.eq_of_mem_replicate hc]
    decide

/-- Witness for C7: the single-paragraph exact-length case on a tiny
document with `max_chunk_chars = 5`. -/
theorem chunker_boundary_behavior_witness :
    hasSubstr nl2 (str "abcde") = false ∧ (str "abcde").length = 5 ∧
    (chunkDocument fixChunkDocSmall 5 2).map Chunk.content = [str "abcde"] :=
  ⟨by decide, by decide,
   (chunker_boundary_behavior fixChunkDocSmall 5 2 (str "description")
     (str "abcde") 2 (str "description") rfl (by decide)).1
     (by decide) (by decide) (by decide) (by decide)⟩
